import Mathlib

/-!
Verification of the LOB microstructure analytics engine (backend/analytics_core.py,
backend/main.py, backend/session_replay.py) via a shallow embedding.

Modelling conventions:
* Python float64 arithmetic is modelled over `ℚ`; the special values NaN/Inf that the
  validator inspects are modelled by the explicit `PyVal` type.
* `datetime` instants and durations are modelled as rational numbers of seconds.
* Irrational library calls (`np.exp`, `np.log`, `sqrt` inside `np.std`) are supplied by
  an explicit `Oracle` of real-valued helpers; every theorem below is independent of the
  oracle's values (they feed only fields no claim constrains), or quantifies over them.
* Python's bounded `deque(maxlen=n)` is modelled by `ringAppend`.
-/

set_option maxRecDepth 1000000

namespace LOB

/-- Python numeric value as seen by the validator: a finite float (as a rational), or one
of the non-finite values that `DataValidator._is_valid_number` rejects. -/
inductive PyVal where
  | num (q : ℚ)
  | nan
  | inf
  | ninf
deriving DecidableEq, Repr

/-- Mirrors `DataValidator._is_valid_number`: true only for finite numerics. -/
def PyVal.isValidNumber : PyVal → Bool
  | .num _ => true
  | _ => false

/-- Value of a finite `PyVal`; 0 for non-finite ones (call sites guard with
`isValidNumber`, mirroring the source's guards). -/
def PyVal.toQ : PyVal → ℚ
  | .num q => q
  | _ => 0

/-- Mirrors `DataValidator._sanitize_number`: keep valid numbers, replace invalid ones
with the typed default. -/
def PyVal.sanitizeNum (v : PyVal) (default : ℚ) : PyVal :=
  if v.isValidNumber then v else .num default

/-- One price level `[price, volume]`.  Levels are modelled as well-shaped pairs; the
malformed-shape validation errors of the source (`len(bid) != 2`) are not representable
and the corresponding error branch is omitted. -/
abbrev Level := PyVal × PyVal

/-- Raw market snapshot (the input dict).  `none` models a missing key.  The optional
trade fields carry plain rationals: `snapshot.get('trade_volume', 0)` and
`snapshot.get('last_trade_price', mid_price)` are modelled by their defaulted reads. -/
structure RawSnapshot where
  bids : Option (List Level)
  asks : Option (List Level)
  mid_price : Option PyVal
  trade_volume : ℚ
  last_trade_price : Option ℚ
  timestamp : ℚ
deriving DecidableEq, Repr

/-- Validation errors, one constructor per distinct `errors.append` site of
`DataValidator.validate_snapshot` (error strings abstracted to their identity). -/
inductive VErr where
  | missingBids
  | missingAsks
  | missingMid
  | bidsEmpty
  | asksEmpty
  | bidPrice (i : ℕ)
  | bidVolume (i : ℕ)
  | askPrice (i : ℕ)
  | askVolume (i : ℕ)
  | badMid
  | crossedBook
  | negSpread
  | wideSpread
deriving DecidableEq, Repr

/-- Price check for one level: finite and strictly positive. -/
def validPrice (p : PyVal) : Bool :=
  p.isValidNumber && decide (0 < p.toQ)

/-- Volume check for one level: finite and non-negative. -/
def validVolume (v : PyVal) : Bool :=
  v.isValidNumber && decide (0 ≤ v.toQ)

/-- Per-level errors for the first 10 levels of one side (mirrors the
`for i, bid in enumerate(bids[:10])` loops). -/
def levelErrors (mkPrice mkVol : ℕ → VErr) (levels : List Level) : List VErr :=
  ((levels.take 10).enum.map fun (i, l) =>
    (if validPrice l.1 then [] else [mkPrice i]) ++
    (if validVolume l.2 then [] else [mkVol i])).flatten

/-- Mirrors `DataValidator.validate_snapshot`.  Returns `(is_valid, errors)`. -/
def validateSnapshot (s : RawSnapshot) : Bool × List VErr :=
  let missing : List VErr :=
    (if s.bids.isNone then [.missingBids] else []) ++
    (if s.asks.isNone then [.missingAsks] else []) ++
    (if s.mid_price.isNone then [.missingMid] else [])
  if missing ≠ [] then (false, missing)
  else
    let bids := s.bids.getD []
    let asks := s.asks.getD []
    let mid := (s.mid_price.getD (.num 0))
    let bidErrs := if bids.isEmpty then [.bidsEmpty] else
      levelErrors VErr.bidPrice VErr.bidVolume bids
    let askErrs := if asks.isEmpty then [.asksEmpty] else
      levelErrors VErr.askPrice VErr.askVolume asks
    let midErrs : List VErr :=
      if mid.isValidNumber && decide (0 < mid.toQ) then [] else [.badMid]
    let soFar := bidErrs ++ askErrs ++ midErrs
    let crossErrs : List VErr :=
      if !bids.isEmpty && !asks.isEmpty && soFar.isEmpty then
        let bb := (bids.headD (.num 0, .num 0)).1
        let ba := (asks.headD (.num 0, .num 0)).1
        if bb.isValidNumber && ba.isValidNumber then
          (if bb.toQ ≥ ba.toQ then [.crossedBook] else []) ++
          (let spread := ba.toQ - bb.toQ
           if spread < 0 then [.negSpread]
           else if spread > ba.toQ * (1/10) then [.wideSpread] else [])
        else []
      else []
    let errs := soFar ++ crossErrs
    (errs.isEmpty, errs)

/-- Mirrors `DataValidator.sanitize_snapshot`: replace invalid numbers with the typed
defaults (price 100, volume 0); missing fields stay missing. -/
def sanitizeSnapshot (s : RawSnapshot) : RawSnapshot :=
  { s with
    mid_price := s.mid_price.map (·.sanitizeNum 100)
    bids := s.bids.map (List.map fun (p, v) => (p.sanitizeNum 100, v.sanitizeNum 0))
    asks := s.asks.map (List.map fun (p, v) => (p.sanitizeNum 100, v.sanitizeNum 0)) }

/-- Total depth of one book side: `sum(b[1] for b in bids)` over ALL levels (used by the
depth-shock detector); volumes read as finite values. -/
def totalDepth (levels : List Level) : ℚ :=
  levels.foldl (fun acc l => acc + l.2.toQ) 0

/-! ### Numeric helpers -/

/-- Python `round(x, digits)` (banker's rounding differs from Mathlib's `round` only on
exact half-way values, which no theorem below depends on). -/
def pyRound (digits : ℕ) (x : ℚ) : ℚ :=
  ((round (x * (10 : ℚ) ^ digits) : ℤ) : ℚ) / (10 : ℚ) ^ digits

/-- Mirrors `np.clip(x, lo, hi)`. -/
def clampQ (x lo hi : ℚ) : ℚ := min (max x lo) hi

/-- Arithmetic mean (`np.mean`); 0 on the empty list (division by zero in `ℚ`). -/
def meanQ (l : List ℚ) : ℚ := l.sum / (l.length : ℚ)

/-- Population variance (`np.var`), so that `np.std l = sqrt (varQ l)`. -/
def varQ (l : List ℚ) : ℚ := meanQ (l.map fun x => (x - meanQ l) ^ 2)

/-- Append to a `deque(maxlen := maxlen)`: drop from the left when full. -/
def ringAppend (maxlen : ℕ) (l : List α) (x : α) : List α :=
  if l.length < maxlen then l ++ [x] else (l ++ [x]).drop (l.length + 1 - maxlen)

/-- Lookup in an association list (Python dict, identity by decidable equality). -/
def assocGet [DecidableEq κ] : List (κ × β) → κ → Option β
  | [], _ => none
  | e :: t, k => if e.1 = k then some e.2 else assocGet t k

/-- Dict store: replace the value at the key if present (keys are unique), else insert
at the end. -/
def assocSet [DecidableEq κ] : List (κ × β) → κ → β → List (κ × β)
  | [], k, v => [(k, v)]
  | e :: t, k, v => if e.1 = k then (k, v) :: t else e :: assocSet t k v

/-- Dict delete. -/
def assocDel [DecidableEq κ] (m : List (κ × β)) (k : κ) : List (κ × β) :=
  m.filter fun e => ¬ e.1 = k

/-! ### AlertManager -/

/-- Identity of an alert message.  The source deduplicates on
`hash(type ‖ message)` where `message` is an f-string; each constructor stands for one
distinct f-string template, with the payload carrying the interpolated data (the exact
display rounding inside the f-strings is immaterial to every claim below). -/
inductive AMsg where
  | validationError (errs : List VErr)
  | liquidityGap (count : ℕ) (labels : List (Bool × ℕ))
  | depthShock (bidDrop askDrop : ℚ)
  | spoofing (sideBid : Bool) (ratio : ℚ)
  | quoteStuffing (rate : ℕ) (avgRate : ℚ)
  | layering (count : ℕ) (sideBid : Bool)
  | momentum (changePct : ℚ) (vol : ℚ)
  | washTrading (meanVol stdVol : ℚ)
  | iceberg (fills : ℕ) (price : ℚ) (sideBid : Bool)
  | heavyImbalance (buySide : Bool) (obi : ℚ)
  | regimeStress (vol : ℚ)
  | regimeCrisis
  | unusualTradeSize (vol : ℚ) (z : ℚ)
  | rapidTrading (n : ℕ) (total : ℚ)
  | processingSlow (ms : ℚ)
  | escalated (m : AMsg) (n : ℕ)
deriving DecidableEq, Repr

/-- Alert record `{type, severity, message}`.  Severity is kept as the literal Python
string (the detectors emit lowercase `"medium" | "high" | "critical"`; the trade-pattern
detector emits uppercase `"MEDIUM" | "HIGH"`, which the escalation logic ignores). -/
structure Alert where
  type : String
  severity : String
  msg : AMsg
deriving DecidableEq, Repr

/-- Dedup identity `hash(type ‖ message)` (md5 modelled as the injective pair). -/
def alertKey (a : Alert) : String × AMsg := (a.type, a.msg)

/-- Audit-ring entry of `AlertManager.log_alert`. -/
structure AuditEntry where
  ts : ℚ
  type : String
  severity : String
  msg : AMsg
deriving DecidableEq, Repr

/-- State of `AlertManager` (dedup window fixed at the default 5 s). -/
structure AlertState where
  recentAlerts : List ((String × AMsg) × ℚ)
  alertCounts : List (String × ℕ)
  auditRing : List AuditEntry
deriving DecidableEq, Repr

def AlertState.init : AlertState := ⟨[], [], []⟩

def dedupWindow : ℚ := 5

/-- Mirrors `AlertManager.should_suppress`: suppress a duplicate seen less than the
window ago; otherwise record `now` as the key's last-seen time. -/
def shouldSuppress (st : AlertState) (a : Alert) (now : ℚ) : Bool × AlertState :=
  match assocGet st.recentAlerts (alertKey a) with
  | some lastSeen =>
      if now - lastSeen < dedupWindow then (true, st)
      else (false, { st with recentAlerts := assocSet st.recentAlerts (alertKey a) now })
  | none => (false, { st with recentAlerts := assocSet st.recentAlerts (alertKey a) now })

/-- Escalation thresholds (`AlertManager.escalation_thresholds`). -/
def escalationThreshold (type : String) : Option ℕ :=
  if type = "SPOOFING" then some 3
  else if type = "DEPTH_SHOCK" then some 2
  else if type = "HEAVY_IMBALANCE" then some 5
  else none

/-- Number of accepted alerts of a type so far (`alert_counts`, default 0). -/
def countOf (counts : List (String × ℕ)) (type : String) : ℕ :=
  (assocGet counts type).getD 0

/-- Mirrors `AlertManager.escalate_severity`: bump the per-type counter; at or above the
threshold, `high` becomes `critical` with the message suffixed, while `medium` becomes
`high` with the message left as is (note the asymmetry in the source). -/
def escalateSeverity (st : AlertState) (a : Alert) : AlertState × Alert :=
  let n := countOf st.alertCounts a.type + 1
  let counts := assocSet st.alertCounts a.type n
  let a' :=
    match escalationThreshold a.type with
    | some th =>
        if n ≥ th then
          if a.severity = "high" then
            { a with severity := "critical", msg := .escalated a.msg n }
          else if a.severity = "medium" then { a with severity := "high" }
          else a
        else a
    | none => a
  ({ st with alertCounts := counts }, a')

/-- Mirrors `AlertManager.log_alert` (audit ring bounded at 1000). -/
def logAlert (st : AlertState) (a : Alert) (ts : ℚ) : AlertState :=
  { st with auditRing := ringAppend 1000 st.auditRing ⟨ts, a.type, a.severity, a.msg⟩ }

/-- One iteration of the alert-filtering loop of `AnalyticsEngine.process_snapshot`:
dedup check, then (for accepted alerts) escalation and audit logging. -/
def processAlertsStep (now ts : ℚ) (acc : AlertState × List Alert) (a : Alert) :
    AlertState × List Alert :=
  let r := shouldSuppress acc.1 a now
  if r.1 then (r.2, acc.2)
  else
    let e := escalateSeverity r.2 a
    (logAlert e.1 e.2 ts, acc.2 ++ [e.2])

/-- The alert-filtering loop of `AnalyticsEngine.process_snapshot` (dedup, then
escalation, then audit logging, for each anomaly in order). -/
def processAlerts (st : AlertState) (alerts : List Alert) (now ts : ℚ) :
    AlertState × List Alert :=
  alerts.foldl (processAlertsStep now ts) (st, [])

/-- Mirrors `AlertManager.cleanup_old_deduplications`. -/
def cleanupOldDeduplications (st : AlertState) (now : ℚ) : AlertState :=
  { st with recentAlerts := st.recentAlerts.filter fun e => ¬ now - e.2 > dedupWindow * 2 }

/-! ### TradeClassifier -/

inductive TradeSide where
  | buy
  | sell
  | unknown
deriving DecidableEq, Repr

def tickSize : ℚ := 1 / 100

/-- Mirrors `TradeClassifier.classify_trade` (Lee-Ready tick test with quote rule). -/
def classifyTrade (tradePrice midPrice bestBid bestAsk : ℚ) : TradeSide :=
  if tradePrice > midPrice then .buy
  else if tradePrice < midPrice then .sell
  else
    let spread := bestAsk - bestBid
    if spread < tickSize then .unknown
    else
      let distFromBid := tradePrice - bestBid
      let distFromAsk := bestAsk - tradePrice
      if distFromBid < distFromAsk then .sell
      else if distFromAsk < distFromBid then .buy
      else .unknown

/-- Mirrors `TradeClassifier.calculate_effective_spread`. -/
def calculateEffectiveSpread (tradePrice midPrice : ℚ) : TradeSide → ℚ
  | .buy => 2 * (tradePrice - midPrice)
  | .sell => 2 * (midPrice - tradePrice)
  | .unknown => 2 * |tradePrice - midPrice|

/-- Mirrors `TradeClassifier.calculate_realized_spread` (the `mid_price_before`
argument is unused in the source as well). -/
def calculateRealizedSpread (tradePrice _midBefore midAfter : ℚ) : TradeSide → ℚ
  | .buy => 2 * (tradePrice - midAfter)
  | .sell => 2 * (midAfter - tradePrice)
  | .unknown => 0

/-- Entry of `TradeClassifier.trade_history`. -/
structure TradeInfo where
  ts : ℚ
  price : ℚ
  volume : ℚ
  side : TradeSide
  effectiveSpread : ℚ
  midPrice : ℚ
deriving DecidableEq, Repr

/-- Mirrors `AnomalyDetectionUtils.detect_volume_anomaly` (z-score test; the numpy /
pure-Python split in the source computes the same population statistics).  `sqrtQ`
stands for the real square root used inside `np.std`. -/
def detectVolumeAnomaly (sqrtQ : ℚ → ℚ) (volumes : List ℚ) (current : ℚ) :
    Option (ℚ × String) :=
  if volumes.length < 2 then none
  else
    let avg := meanQ volumes
    let std := sqrtQ (varQ volumes)
    if std = 0 then none
    else
      let z := (current - avg) / std
      if |z| > 3 then some (z, if |z| < 5 then "MEDIUM" else "HIGH") else none

/-- Mirrors `AnomalyDetectionUtils.detect_rapid_trading` over timestamps in seconds
(in the deployed paths the stored timestamps are ISO strings, which the source's
`isinstance(..., datetime)` guard skips; the model keeps the numeric computation). -/
def detectRapidTrading (tss : List ℚ) : Option (ℕ × ℚ) :=
  if tss.length < 2 then none
  else
    let diffs := (tss.zip (tss.drop 1)).map fun p => p.2 - p.1
    if diffs.isEmpty then none
    else
      let avg := meanQ diffs
      if avg < 1 / 10 then some (tss.length, diffs.sum) else none

/-- Mirrors `TradeClassifier.detect_trade_anomalies`. -/
def detectTradeAnomalies (sqrtQ : ℚ → ℚ) (history : List TradeInfo) : List Alert :=
  if history.length < 10 then []
  else
    let recent := history.drop (history.length - 20)
    let volumes := recent.map (·.volume)
    let lastVol := (recent.getLast?.map (·.volume)).getD 0
    let volAlerts :=
      match detectVolumeAnomaly sqrtQ volumes lastVol with
      | some (z, sev) => [Alert.mk "UNUSUAL_TRADE_SIZE" sev (.unusualTradeSize lastVol z)]
      | none => []
    let rapidAlerts :=
      if recent.length ≥ 5 then
        let last5 := recent.drop (recent.length - 5)
        match detectRapidTrading (last5.map (·.ts)) with
        | some (n, total) => [Alert.mk "RAPID_TRADING" "MEDIUM" (.rapidTrading n total)]
        | none => []
      else []
    volAlerts ++ rapidAlerts

/-! ### V-PIN -/

/-- Configured bucket volume `B` (`self.bucket_size = 1000`). -/
def bucketSize : ℚ := 1000

/-- V-PIN accumulators and the completed-bucket order-imbalance ring (bounded 50). -/
structure VpinState where
  bucketVol : ℚ
  bucketBuy : ℚ
  bucketSell : ℚ
  bucketHistory : List ℚ
deriving DecidableEq, Repr

/-- The V-PIN block of `process_snapshot`: accumulate the classified trade into the
current bucket; on completion (`vol ≥ B`) append `|buy − sell| / (buy + sell)` to the
ring (when that denominator is positive), compute the mean once the ring has at least
10 entries, and reset the accumulators.  Returns the new state and the `vpin` value
(0 on every non-completing tick). -/
def vpinUpdate (vs : VpinState) (side : TradeSide) (tv : ℚ) : VpinState × ℚ :=
  if tv > 0 then
    let buy := if side = .buy then vs.bucketBuy + tv else vs.bucketBuy
    let sell := if side = .sell then vs.bucketSell + tv else vs.bucketSell
    let vol := vs.bucketVol + tv
    if vol ≥ bucketSize then
      let total := buy + sell
      let ring :=
        if total > 0 then ringAppend 50 vs.bucketHistory (|buy - sell| / total)
        else vs.bucketHistory
      let vpin := if ring.length ≥ 10 then meanQ ring else 0
      (⟨0, 0, 0, ring⟩, vpin)
    else (⟨vol, buy, sell, vs.bucketHistory⟩, 0)
  else (vs, 0)

/-! ### OFI and microprice -/

/-- The OFI case analysis of `process_snapshot` (bid side and inverted ask side),
computed against the previous best quotes. -/
def computeOfi (prevBB prevBA prevQB prevQA bb qb ba qa : ℚ) : ℚ :=
  (if bb > prevBB then qb else if bb < prevBB then -prevQB else qb - prevQB) +
  (if ba > prevBA then prevQA else if ba < prevBA then -qa else -(qa - prevQA))

/-- The microprice computation of `process_snapshot` (lines 971–976): quantity-weighted
average of the opposite best prices, with the midpoint fallback when the total L1
quantity is at most the `1e-9` safety threshold. -/
def computeMicroprice (bestBidPx bestBidQ bestAskPx bestAskQ : ℚ) : ℚ :=
  let totalQ := bestBidQ + bestAskQ
  if totalQ > 1 / 10 ^ 9 then
    (bestBidQ * bestAskPx + bestAskQ * bestBidPx) / totalQ
  else (bestAskPx + bestBidPx) / 2

/-! ### Spoofing detector -/

/-- EWMA smoothing factor `self.alpha = 0.05`. -/
def ewmaAlpha : ℚ := 1 / 20

/-- State of the spoofing detector: the `avg_l1_vol` EWMA, the L1-volume ring
(bounded 20) behind `volume_volatility`, the event counter, the risk ring
(bounded 100) whose length gates the decay, and the previous books (only the first
level is ever read). -/
structure SpoofState where
  avgL1Vol : ℚ
  volVolHist : List ℚ
  spoofEvents : ℕ
  riskHist : List ℚ
  prevBids : List (ℚ × ℚ)
  prevAsks : List (ℚ × ℚ)
deriving DecidableEq, Repr

/-- Output of one spoofing-detector tick. -/
structure SpoofResult where
  st : SpoofState
  detected : Bool
  sideBid : Bool
  volumeRatio : ℚ
  risk : ℚ
  volVolatility : ℚ
deriving DecidableEq, Repr

/-- One-tick L1 cancel-without-move detection condition of `process_snapshot`, for one
side, given the updated `avg_l1_vol`. -/
def spoofDetect (avg : ℚ) (prev cur : Option (ℚ × ℚ)) : Bool :=
  match prev, cur with
  | some (pp, pv), some (cp, cv) =>
      decide (pv > 3 * avg) && decide (cv < (3 / 10) * avg) && decide (|cp - pp| < 1 / 1000)
  | _, _ => false

/-- The spoofing block of `process_snapshot` (lines 1140–1205 and the
`prev_bids`/`prev_asks` update): update the `avg_l1_vol` EWMA and the L1-volume ring,
detect per-side cancel-without-move events (each incrementing the counter), compute
`spoofing_risk`, decay the counter by one (floored at 0) on ticks where the current
risk-ring length is divisible by 10, and append to the risk ring.  `sqrtQ` stands for
the real square root inside `np.std`. -/
def spoofStep (sqrtQ : ℚ → ℚ) (s : SpoofState) (bids asks : List (ℚ × ℚ)) :
    SpoofResult :=
  let l1 := ((bids.headD (0, 0)).2 + (asks.headD (0, 0)).2) / 2
  let avg := (1 - ewmaAlpha) * s.avgL1Vol + ewmaAlpha * l1
  let hist := ringAppend 20 s.volVolHist l1
  let vv := if hist.length > 5 then sqrtQ (varQ hist) / (meanQ hist + 1 / 1000000) else 0
  let bidDet := spoofDetect avg s.prevBids.head? bids.head?
  let events1 := if bidDet then s.spoofEvents + 1 else s.spoofEvents
  let askDet := spoofDetect avg s.prevAsks.head? asks.head?
  let events2 := if askDet then events1 + 1 else events1
  let detected := bidDet || askDet
  let ratioOf (prev cur : Option (ℚ × ℚ)) : ℚ :=
    ((prev.map (·.2)).getD 0) / max ((cur.map (·.2)).getD 0) 1
  let volumeRatio :=
    if askDet then ratioOf s.prevAsks.head? asks.head?
    else if bidDet then ratioOf s.prevBids.head? bids.head?
    else 0
  let baseRisk := min (vv * 50) 30
  let eventRisk := min ((events2 : ℚ) * 5) 40
  let sizeRisk : ℚ := if l1 > 4 * avg then 30 else if l1 > 2 * avg then 15 else 0
  let risk := min (baseRisk + eventRisk + sizeRisk) 100
  let events3 := if s.riskHist.length % 10 = 0 then events2 - 1 else events2
  let riskHist := ringAppend 100 s.riskHist risk
  ⟨⟨avg, hist, events3, riskHist, bids, asks⟩, detected, !askDet, volumeRatio, risk, vv⟩

/-! ### AnalyticsEngine -/

/-- Detailed liquidity-gap record (`liquidity_gaps` visualization entries). -/
structure GapRec where
  price : ℚ
  volume : ℚ
  sideBid : Bool
  level : ℕ
  riskScore : ℚ
deriving DecidableEq, Repr

/-- The liquidity-gap loop of `process_snapshot`: scan the first 10 levels (indexing
both books by the bid range, as the source does), collecting gap labels, affected
levels, the severity score and the per-gap records. -/
def liquidityGapScan (bids asks : List (ℚ × ℚ)) :
    List (Bool × ℕ) × List ℕ × ℕ × List GapRec :=
  (List.range (min 10 bids.length)).foldl
    (fun acc i =>
      let (bPx, bV) := bids.getD i (0, 0)
      let (aPx, aV) := asks.getD i (0, 0)
      let acc1 :=
        if bV < 50 then
          (acc.1 ++ [(true, i + 1)], acc.2.1 ++ [i + 1], acc.2.2.1 + (10 - i) * 2,
           acc.2.2.2 ++ [⟨bPx, bV, true, i + 1, min 100 (((10 - i : ℕ) : ℚ) * 15 + (50 - bV) * 2)⟩])
        else acc
      if aV < 50 then
        (acc1.1 ++ [(false, i + 1)], acc1.2.1 ++ [i + 1], acc1.2.2.1 + (10 - i) * 2,
         acc1.2.2.2 ++ [⟨aPx, aV, false, i + 1, min 100 (((10 - i : ℕ) : ℚ) * 15 + (50 - aV) * 2)⟩])
      else acc1)
    ([], [], 0, [])

/-- Iceberg candidate value: `(fills, accumulated volume, first_seen)`. -/
abbrev IceCand := ℕ × ℚ × ℚ

/-- The iceberg-detection loop of `process_snapshot` for one side: track repeated
appearances keyed by `(side, price rounded to 2 decimals)`; at 5 or more fills with the
current volume inside the consistency band record the pattern, and at 8 or more fills
emit the alert and delete the candidate. -/
def icebergScan (isBid : Bool) (levels : List (ℚ × ℚ)) (now : ℚ)
    (cands0 : List ((Bool × ℚ) × IceCand)) (rep0 : List (ℚ × Bool × ℕ × ℚ)) :
    List ((Bool × ℚ) × IceCand) × List (ℚ × Bool × ℕ × ℚ) × List Alert :=
  (levels.take 3).foldl
    (fun (acc : List ((Bool × ℚ) × IceCand) × List (ℚ × Bool × ℕ × ℚ) × List Alert) l =>
      let (cands, rep, alerts) := acc
      let (px, v) := l
      let key := (isBid, pyRound 2 px)
      match assocGet cands key with
      | some (fills, vol, seen) =>
          let fills' := fills + 1
          let vol' := vol + v
          if fills' ≥ 5 then
            let avgFill := vol' / (fills' : ℚ)
            if (8 / 10) * avgFill ≤ v ∧ v ≤ (12 / 10) * avgFill then
              let rep' := ringAppend 100 rep (px, isBid, fills', vol')
              if fills' ≥ 8 then
                (assocDel cands key, rep',
                 alerts ++ [⟨"ICEBERG_ORDER", "medium", .iceberg fills' px isBid⟩])
              else (assocSet cands key (fills', vol', seen), rep', alerts)
            else (assocSet cands key (fills', vol', seen), rep, alerts)
          else (assocSet cands key (fills', vol', seen), rep, alerts)
      | none => (cands ++ [(key, (1, v, now))], rep, alerts))
    (cands0, rep0, [])

/-- Oracle for the real-valued library calls on the hot path and for the ambient
wall clock.  `sqrtQ`, `logQ`, `expQ` stand for the real `sqrt`, `ln`, `exp` inside
`np.std` / `np.log` / `np.exp`; `regimeOf` stands for `cluster_map[kmeans.predict(·)]`
of the last model published by the background trainer; `procMs` is the measured
wall-clock processing time.  No theorem below depends on the values these produce. -/
structure Oracle where
  now : ℚ
  sqrtQ : ℚ → ℚ
  logQ : ℚ → ℚ
  expQ : ℚ → ℚ
  regimeOf : ℚ × ℚ × ℚ × ℚ → ℕ
  procMs : ℚ

/-- Per-session state of `AnalyticsEngine` (the write-only `prev_depth_profile` and the
background-training bookkeeping flags `pending_training` / `training_in_progress` /
`last_train_time`, which affect no modelled output, are omitted; `is_fitted` is kept and
is mutated only by the off-path trainer). -/
structure EngineState where
  history : List ℚ
  featureHistory : List (ℚ × ℚ × ℚ × ℚ)
  isFitted : Bool
  alerts : AlertState
  lastCleanupTime : ℚ
  prevBestBid : Option ℚ
  prevBestAsk : Option ℚ
  prevBidQ : ℚ
  prevAskQ : ℚ
  vpin : VpinState
  gapHistory : List ℕ
  gapSeverityHistory : List ℕ
  spoof : SpoofState
  prevTotalBidDepth : ℚ
  prevTotalAskDepth : ℚ
  avgSpread : ℚ
  avgSpreadSq : ℚ
  orderEventTimestamps : List ℚ
  quoteUpdateRate : List ℕ
  layeringHistory : List (Bool × ℕ)
  priceMomentum : List ℚ
  aggressiveOrderHistory : List (ℚ × ℚ × Bool)
  volumeClustering : List (ℚ × ℚ × ℚ × ℕ)
  icebergCandidates : List ((Bool × ℚ) × IceCand)
  repeatedFillsHistory : List (ℚ × Bool × ℕ × ℚ)
  tradeHistory : List TradeInfo
  tradeMetricsHistory : List (TradeInfo × ℚ)
  midPriceHistory : List ℚ
deriving DecidableEq, Repr

/-- Initial per-session state (`AnalyticsEngine.__init__`, created at wall time `t0`). -/
def initEngineState (t0 : ℚ) : EngineState where
  history := []
  featureHistory := []
  isFitted := false
  alerts := .init
  lastCleanupTime := t0
  prevBestBid := none
  prevBestAsk := none
  prevBidQ := 0
  prevAskQ := 0
  vpin := ⟨0, 0, 0, []⟩
  gapHistory := []
  gapSeverityHistory := []
  spoof := ⟨10, [], 0, [], [], []⟩
  prevTotalBidDepth := 0
  prevTotalAskDepth := 0
  avgSpread := 1 / 20
  avgSpreadSq := 1 / 400
  orderEventTimestamps := []
  quoteUpdateRate := []
  layeringHistory := []
  priceMomentum := []
  aggressiveOrderHistory := []
  volumeClustering := []
  icebergCandidates := []
  repeatedFillsHistory := []
  tradeHistory := []
  tradeMetricsHistory := []
  midPriceHistory := []

/-- Enriched snapshot: the input dict plus the computed fields `process_snapshot`
merges into it.  `none` models a field that was never added (the fatal-validation
early return adds only `anomalies`).  Alert dicts are modelled by their
`{type, severity, message}` core; the auxiliary numeric evidence keys some alerts
carry ride along inside the message payloads. -/
structure Enriched where
  snap : RawSnapshot
  spread : Option ℚ
  obi : Option ℚ
  ofi : Option ℚ
  vpin : Option ℚ
  microprice : Option ℚ
  divergence : Option ℚ
  directionalProb : Option ℚ
  tradeSide : Option TradeSide
  effectiveSpread : Option ℚ
  realizedSpread : Option ℚ
  tradeClassified : Option Bool
  bestBid : Option ℚ
  bestAsk : Option ℚ
  qBid : Option ℚ
  qAsk : Option ℚ
  regime : Option ℕ
  regimeLabel : Option String
  anomalies : List Alert
  gapCount : Option ℕ
  gapSeverityScore : Option ℕ
  spoofingRisk : Option ℚ
  volVolatility : Option ℚ
  liquidityGaps : Option (List GapRec)
deriving DecidableEq, Repr

/-- The fatal-validation early return of `process_snapshot`: the (sanitized) snapshot
plus a single critical `DATA_VALIDATION_ERROR` alert carrying the first three
re-validation errors, with no computed field added. -/
def earlyReturn (s : RawSnapshot) (errs : List VErr) : Enriched where
  snap := s
  spread := none
  obi := none
  ofi := none
  vpin := none
  microprice := none
  divergence := none
  directionalProb := none
  tradeSide := none
  effectiveSpread := none
  realizedSpread := none
  tradeClassified := none
  bestBid := none
  bestAsk := none
  qBid := none
  qAsk := none
  regime := none
  regimeLabel := none
  anomalies := [⟨"DATA_VALIDATION_ERROR", "critical", .validationError (errs.take 3)⟩]
  gapCount := none
  gapSeverityScore := none
  spoofingRisk := none
  volVolatility := none
  liquidityGaps := none

/-- Book side of a snapshot as finite numeric pairs (the enrichment path reads levels
through float arithmetic; only validated positions are ever read). -/
def bidsQ (s : RawSnapshot) : List (ℚ × ℚ) :=
  (s.bids.getD []).map fun l => (l.1.toQ, l.2.toQ)

/-- Ask side of a snapshot as finite numeric pairs. -/
def asksQ (s : RawSnapshot) : List (ℚ × ℚ) :=
  (s.asks.getD []).map fun l => (l.1.toQ, l.2.toQ)

/-- The `mid_price` read of the enrichment path. -/
def midOf (s : RawSnapshot) : ℚ := (s.mid_price.getD (.num 0)).toQ

/-- The Lee-Ready side `process_snapshot` assigns to the snapshot's trade
(`last_trade_price` defaults to the mid price). -/
def tradeSideOf (s : RawSnapshot) : TradeSide :=
  classifyTrade (s.last_trade_price.getD (midOf s)) (midOf s)
    ((bidsQ s).headD (0, 0)).1 ((asksQ s).headD (0, 0)).1

/-- The normalized-OFI value `process_snapshot` computes: the raw OFI against the
previous best quotes (0 on the first snapshot), scaled by 500 and clipped to
`[−1, 1]`. -/
def ofiField (st : EngineState) (bb qb ba qa : ℚ) : ℚ :=
  clampQ
    ((match st.prevBestBid, st.prevBestAsk with
      | some pb, some pa => computeOfi pb pa st.prevBidQ st.prevAskQ bb qb ba qa
      | _, _ => 0) / 500)
    (-1) 1

/-- Regime labels (`self.regime_labels`). -/
def regimeLabelOf (r : ℕ) : String :=
  if r = 0 then "Calm"
  else if r = 1 then "Stressed"
  else if r = 2 then "Execution Hot"
  else if r = 3 then "Manipulation Suspected"
  else "Unknown"

/-- The main enrichment path of `process_snapshot`, for a snapshot that passed
validation (directly or after sanitization).  Follows the source's statement order;
levels are read as their finite values (only validated positions are ever read). -/
def processValid (o : Oracle) (st : EngineState) (s : RawSnapshot) :
    EngineState × Enriched :=
  let bids := bidsQ s
  let asks := asksQ s
  let bb := bids.headD (0, 0)
  let ba := asks.headD (0, 0)
  let bbPx := bb.1
  let bbQ := bb.2
  let baPx := ba.1
  let baQ := ba.2
  let ofiNorm := ofiField st bbPx bbQ baPx baQ
  let spread := baPx - bbPx
  let mid := midOf s
  let midHist := ringAppend 100 st.midPriceHistory mid
  let tv := s.trade_volume
  let tradePrice := s.last_trade_price.getD mid
  let side := tradeSideOf s
  let effSpread := if 0 < tv then calculateEffectiveSpread tradePrice mid side else 0
  let rlzd :=
    if 0 < tv ∧ 2 ≤ midHist.length then
      calculateRealizedSpread tradePrice (midHist.getD (midHist.length - 2) 0) mid side
    else 0
  let vpinRes := vpinUpdate st.vpin side tv
  let tradeInfo : TradeInfo := ⟨s.timestamp, tradePrice, tv, side, effSpread, mid⟩
  let tradeHist := if 0 < tv then ringAppend 1000 st.tradeHistory tradeInfo else st.tradeHistory
  let tradeMetrics :=
    if 0 < tv then ringAppend 1000 st.tradeMetricsHistory (tradeInfo, rlzd)
    else st.tradeMetricsHistory
  let obiIdx := List.range (min 5 bids.length)
  let wObiBid := (obiIdx.map fun i => (bids.getD i (0, 0)).2 * o.expQ (-(1 / 2) * i)).sum
  let wObiAsk := (obiIdx.map fun i => (asks.getD i (0, 0)).2 * o.expQ (-(1 / 2) * i)).sum
  let totalW :=
    (obiIdx.map fun i =>
      ((bids.getD i (0, 0)).2 + (asks.getD i (0, 0)).2) * o.expQ (-(1 / 2) * i)).sum
  let obi := if totalW > 1 / 10 ^ 9 then (wObiBid - wObiAsk) / totalW else 0
  let microprice := computeMicroprice bbPx bbQ baPx baQ
  let divergence := microprice - mid
  let dirProb := 1 / (1 + o.expQ (-2 * (divergence / tickSize)))
  let hist1 := st.history ++ [mid]
  let hist := if 600 < hist1.length then hist1.drop 1 else hist1
  let volatility :=
    if 20 < hist.length then
      let logs := (hist.drop (hist.length - 20)).map o.logQ
      o.sqrtQ (varQ ((logs.zip (logs.drop 1)).map fun p => p.2 - p.1)) * 1000
    else 0
  let avgSpread := (1 - ewmaAlpha) * st.avgSpread + ewmaAlpha * spread
  let avgSpreadSq := (1 - ewmaAlpha) * st.avgSpreadSq + ewmaAlpha * spread ^ 2
  let stdSpread := o.sqrtQ (max 0 (avgSpreadSq - avgSpread ^ 2))
  let spreadZ := (spread - avgSpread) / max stdSpread (1 / 1000000)
  let fv := (spreadZ, |obi|, volatility, |ofiNorm|)
  let featHist := ringAppend 600 st.featureHistory fv
  let regime := if 50 < featHist.length then if st.isFitted then o.regimeOf fv else 0 else 0
  let gapsRes := liquidityGapScan bids asks
  let gapLabels := gapsRes.1
  let gapLevels := gapsRes.2.1
  let gapSev := gapsRes.2.2.1
  let gapRecs := gapsRes.2.2.2
  let gapCount := gapLabels.length
  let gapAlerts : List Alert :=
    if gapLabels.isEmpty then []
    else
      let sev :=
        if 6 < gapCount ∨ gapLevels.any (· ≤ 2) then "critical"
        else if 3 < gapCount then "high" else "medium"
      [⟨"LIQUIDITY_GAP", sev, .liquidityGap gapCount (gapLabels.take 5)⟩]
  let tbd := totalDepth (s.bids.getD [])
  let tad := totalDepth (s.asks.getD [])
  let depthAlerts : List Alert :=
    if st.prevTotalBidDepth > 1 / 10 ^ 9 then
      let bd := (st.prevTotalBidDepth - tbd) / st.prevTotalBidDepth
      let ad := (st.prevTotalAskDepth - tad) / st.prevTotalAskDepth
      if bd > 3 / 10 ∨ ad > 3 / 10 then [⟨"DEPTH_SHOCK", "high", .depthShock bd ad⟩] else []
    else []
  let sres := spoofStep o.sqrtQ st.spoof bids asks
  let spoofAlerts : List Alert :=
    if sres.detected then
      [⟨"SPOOFING", "critical", .spoofing sres.sideBid sres.volumeRatio⟩]
    else []
  let evts := ringAppend 100 st.orderEventTimestamps o.now
  let rate := (evts.filter fun t => t > o.now - 1).length
  let qur := ringAppend 20 st.quoteUpdateRate rate
  let avgRate := meanQ (qur.map fun n => (n : ℚ))
  let stuffAlerts : List Alert :=
    if 20 < rate ∧ (rate : ℚ) > avgRate * 3 then
      [⟨"QUOTE_STUFFING", "critical", .quoteStuffing rate avgRate⟩]
    else []
  let avgL1 := sres.st.avgL1Vol
  let bigBid := ((bids.take 5).map (·.2)).countP fun v => decide (v > 2 * avgL1)
  let bigAsk := ((asks.take 5).map (·.2)).countP fun v => decide (v > 2 * avgL1)
  let layer :=
    if 3 ≤ bigBid ∧ bigAsk + 2 < bigBid then
      (min (bigBid * 20) 100, some true, ringAppend 50 st.layeringHistory (true, bigBid))
    else if 3 ≤ bigAsk ∧ bigBid + 2 < bigAsk then
      (min (bigAsk * 20) 100, some false, ringAppend 50 st.layeringHistory (false, bigAsk))
    else ((0 : ℕ), none, st.layeringHistory)
  let layerAlerts : List Alert :=
    if 50 < layer.1 then
      [⟨"LAYERING", if 70 < layer.1 then "critical" else "high",
        .layering (if layer.2.1 = some true then bigBid else bigAsk) (layer.2.1 = some true)⟩]
    else []
  let l1 := (bbQ + baQ) / 2
  let priceChange :=
    match st.priceMomentum.getLast? with
    | some prevMid => if 0 < prevMid then (mid - prevMid) / prevMid else 0
    | none => 0
  let pm := ringAppend 20 st.priceMomentum mid
  let mom :=
    if 2 / 1000 < |priceChange| ∧ (5 / 2) * avgL1 < l1 then
      if 4 ≤ pm.length then
        let last4 := pm.drop (pm.length - 4)
        let rets := (last4.zip (last4.drop 1)).map fun p => (p.2 - p.1) / p.1
        if rets.all (fun c => decide (0 < c)) || rets.all (fun c => decide (c < 0)) then
          let aoh := ringAppend 30 st.aggressiveOrderHistory (priceChange, l1, decide (0 < priceChange))
          if 2 ≤ aoh.length then
            (aoh, [Alert.mk "MOMENTUM_IGNITION" "critical" (.momentum (priceChange * 100) l1)])
          else (aoh, ([] : List Alert))
        else (st.aggressiveOrderHistory, [])
      else (st.aggressiveOrderHistory, [])
    else (st.aggressiveOrderHistory, [])
  let vc :=
    (List.range (min 3 (min bids.length asks.length))).foldl
      (fun acc i =>
        let (bPx, bV) := bids.getD i (0, 0)
        let (aPx, aV) := asks.getD i (0, 0)
        if |bV - aV| / max bV aV < 1 / 20 ∧ avgL1 < bV then
          ringAppend 50 acc (bPx, aPx, (bV + aV) / 2, i)
        else acc)
      st.volumeClustering
  let washAlerts : List Alert :=
    if 5 ≤ vc.length then
      let recentVols := (vc.drop (vc.length - 5)).map fun e => e.2.2.1
      let vstd := o.sqrtQ (varQ recentVols)
      let vmean := meanQ recentVols
      if vstd / vmean < 1 / 10 ∧ avgL1 * (3 / 2) < vmean then
        [⟨"WASH_TRADING", "high", .washTrading vmean vstd⟩]
      else []
    else []
  let iceB := icebergScan true bids o.now st.icebergCandidates st.repeatedFillsHistory
  let iceA := icebergScan false asks o.now iceB.1 iceB.2.1
  let cands := iceA.1.filter fun e => ¬ e.2.2.2 < o.now - 300
  let anomalies :=
    gapAlerts ++ depthAlerts ++ spoofAlerts ++ stuffAlerts ++ layerAlerts ++ mom.2 ++
    washAlerts ++ iceB.2.2 ++ iceA.2.2 ++
    (if 1 / 2 < |obi| then [Alert.mk "HEAVY_IMBALANCE" "high" (.heavyImbalance (decide (0 < obi)) obi)] else []) ++
    (if regime = 1 then [Alert.mk "REGIME_STRESS" "medium" (.regimeStress volatility)] else []) ++
    (if regime = 3 then [Alert.mk "REGIME_CRISIS" "critical" .regimeCrisis] else []) ++
    detectTradeAnomalies o.sqrtQ tradeHist
  let alertRes := processAlerts st.alerts anomalies o.now s.timestamp
  let cleaned :=
    if 60 < o.now - st.lastCleanupTime then (cleanupOldDeduplications alertRes.1 o.now, o.now)
    else (alertRes.1, st.lastCleanupTime)
  let outAnoms :=
    alertRes.2 ++
    (if 100 < o.procMs then [Alert.mk "PROCESSING_SLOW" "medium" (.processingSlow o.procMs)] else [])
  (⟨hist, featHist, st.isFitted, cleaned.1, cleaned.2,
    some bbPx, some baPx, bbQ, baQ, vpinRes.1,
    ringAppend 100 st.gapHistory gapCount, ringAppend 100 st.gapSeverityHistory gapSev,
    sres.st, tbd, tad, avgSpread, avgSpreadSq,
    evts, qur, layer.2.2, pm, mom.1, vc, cands, iceA.2.1,
    tradeHist, tradeMetrics, midHist⟩,
   { snap := s
     spread := some (pyRound 4 spread)
     obi := some (pyRound 4 obi)
     ofi := some (pyRound 4 ofiNorm)
     vpin := some (pyRound 4 vpinRes.2)
     microprice := some (pyRound 2 microprice)
     divergence := some (pyRound 4 divergence)
     directionalProb := some (pyRound 1 (dirProb * 100))
     tradeSide := if 0 < tv then some side else none
     effectiveSpread := if 0 < tv then some (pyRound 4 effSpread) else none
     realizedSpread := if 0 < tv then some (pyRound 4 rlzd) else none
     tradeClassified := some (decide (0 < tv))
     bestBid := some bbPx
     bestAsk := some baPx
     qBid := some bbQ
     qAsk := some baQ
     regime := some regime
     regimeLabel := some (regimeLabelOf regime)
     anomalies := outAnoms
     gapCount := some gapCount
     gapSeverityScore := some gapSev
     spoofingRisk := some sres.risk
     volVolatility := some sres.volVolatility
     liquidityGaps := some gapRecs })

/-- Mirrors `AnalyticsEngine.process_snapshot`: validate; on failure sanitize and
re-validate; on a second failure return the snapshot with the single critical
validation alert and the per-session state untouched; otherwise run the full
enrichment pipeline. -/
def processSnapshot (o : Oracle) (st : EngineState) (s : RawSnapshot) :
    EngineState × Enriched :=
  if (validateSnapshot s).1 then processValid o st s
  else
    let s' := sanitizeSnapshot s
    if (validateSnapshot s').1 then processValid o st s'
    else (st, earlyReturn s' (validateSnapshot s').2)

/-! ### UserSession playback speed (session_replay.py) -/

/-- Input to `set_speed`: either a value `int()` converts (given by the resulting
integer) or one on which `int()` raises, taking the `except` branch. -/
inductive SpeedInput where
  | intVal (n : ℤ)
  | nonNumeric
deriving DecidableEq, Repr

/-- The `try: speed = int(speed) except: speed = 1` coercion. -/
def SpeedInput.toInt : SpeedInput → ℤ
  | .intVal n => n
  | .nonNumeric => 1

/-- The playback fields of `UserSession` touched by `set_speed`. -/
structure UserSession where
  speed : ℤ
  lastActivity : ℚ
deriving DecidableEq, Repr

/-- Mirrors `UserSession.set_speed`: coerce with `int()` (1 on failure) and store
`max(1, min(speed, 10))`. -/
def setSpeed (_sess : UserSession) (v : SpeedInput) (now : ℚ) : UserSession :=
  { speed := max 1 (min v.toInt 10), lastActivity := now }

/-! ### Engine routing (analytics_worker in main.py) -/

inductive EngineMode where
  | cpp
  | python
deriving DecidableEq, Repr

/-- Outcome of one `cpp_client.process_snapshot(...)` attempt as the worker's `try`
block observes it: success (with or without Python advanced anomalies layered on top),
a `grpc.RpcError`, a `ConnectionError`/`TimeoutError` (timeouts), or any other
exception — e.g. a malformed reply blowing up during result handling. -/
inductive CppOutcome where
  | success (hasAdvanced : Bool)
  | rpcError
  | connError
  | otherError
deriving DecidableEq, Repr

/-- The engine-routing state threaded through `analytics_worker`: the global
`engine_mode`/`cpp_client` pair and the local `consecutive_cpp_failures` counter. -/
structure WorkerState where
  engineMode : EngineMode
  cppClient : Bool
  failures : ℕ
deriving DecidableEq, Repr

/-- Mirrors `MAX_CPP_FAILURES = 5`. -/
def maxCppFailures : ℕ := 5

/-- One iteration of the engine-selection logic of `analytics_worker` (main.py lines
596–649), projected onto the routing state and the `engine` tag attached to the
processed snapshot.  Only the `grpc.RpcError` and `ConnectionError`/`TimeoutError`
handlers increment the failure counter and, at the ceiling, demote the mode and drop
the client; the final generic `except Exception` handler falls back without touching
the counter. -/
def workerStep (st : WorkerState) (out : CppOutcome) : WorkerState × String :=
  if st.engineMode = .cpp ∧ st.cppClient = true then
    match out with
    | .success hasAdvanced =>
        ({ st with failures := 0 }, if hasAdvanced then "cpp+python_advanced" else "cpp")
    | .rpcError =>
        let f := st.failures + 1
        if f ≥ maxCppFailures then (⟨.python, false, f⟩, "python_fallback")
        else ({ st with failures := f }, "python_fallback")
    | .connError =>
        let f := st.failures + 1
        if f ≥ maxCppFailures then (⟨.python, false, f⟩, "python_fallback")
        else ({ st with failures := f }, "python_fallback")
    | .otherError => (st, "python_fallback")
  else (st, "python")

/-- Outcome of the primary call as `SnapshotProcessor.process` observes it (that
service class catches every exception in one handler). -/
inductive ProcOutcome where
  | success
  | exc
deriving DecidableEq, Repr

/-- Mirrors `SnapshotProcessor.process` (snapshot_processor.py; the class is not
instantiated anywhere in the backend — `analytics_worker` above is the deployed
routing logic).  Unlike the worker, it counts every exception kind. -/
def processorStep (mode : EngineMode) (client : Bool) (failures : ℕ) (out : ProcOutcome) :
    EngineMode × ℕ × String :=
  if mode = .cpp ∧ client = true ∧ failures < maxCppFailures then
    match out with
    | .success => (mode, 0, "cpp")
    | .exc =>
        let f := failures + 1
        if f ≥ maxCppFailures then (.python, f, "python_fallback")
        else (mode, f, "python_fallback")
  else (mode, failures, "python")

/-! ### Concrete evaluation inputs -/

/-- Oracle with inert values for concrete evaluation (the modelled claims do not depend
on the oracle outputs). -/
def exOracle : Oracle := ⟨0, fun _ => 0, fun _ => 0, fun _ => 0, fun _ => 0, 0⟩

/-- Snapshot with a negative best-bid price: fails validation, and the sanitizer keeps
the negative value (it is a valid number), so re-validation fails too. -/
def exBadSnap : RawSnapshot :=
  ⟨some [(.num (-5), .num 10)], some [(.num 101, .num 5)], some (.num 100), 0, none, 0⟩

/-- Ten well-formed bid levels. -/
def goodBids10 : List Level := List.replicate 10 (.num 100, .num 60)

/-- Ten well-formed ask levels. -/
def goodAsks10 : List Level := List.replicate 10 (.num 101, .num 60)

/-- Two malformed levels beyond the tenth: a negative volume and a NaN price. -/
def deepBadTail : List Level := [(.num 99, .num (-5)), (.nan, .num 7)]

/-- First snapshot of the OFI run: establishes the previous best quotes. -/
def exOfiSnap1 : RawSnapshot :=
  ⟨some [(.num 100, .num 10)], some [(.num 101, .num 5)], some (.num 100), 0, none, 0⟩

/-- Second snapshot of the OFI run: unchanged prices, bid quantity raised by
`0.024`, giving a raw OFI of `3/125` and a normalized OFI of `3/62500`. -/
def exOfiSnap2 : RawSnapshot :=
  ⟨some [(.num 100, .num (1253/125))], some [(.num 101, .num 5)], some (.num 100), 0, none, 1⟩

/-- Engine state and output after processing the two OFI snapshots from scratch. -/
def exOfiRun : EngineState × Enriched :=
  processSnapshot exOracle (processSnapshot exOracle (initEngineState 0) exOfiSnap1).1 exOfiSnap2

/-- Snapshot carrying one bucket-filling buyer-initiated trade (`trade_volume = 1000 =
B`, `last_trade_price` above the mid). -/
def vpinTradeSnap (t : ℕ) : RawSnapshot :=
  ⟨some [(.num 100, .num 10)], some [(.num (401/4), .num 10)], some (.num 100), 1000,
   some (201/2), (t : ℚ)⟩

/-- The same book with no trade. -/
def vpinNoTradeSnap : RawSnapshot :=
  ⟨some [(.num 100, .num 10)], some [(.num (401/4), .num 10)], some (.num 100), 0, none, 10⟩

/-- Engine state after `n` bucket-completing trade snapshots from scratch. -/
def vpinRunState (n : ℕ) : EngineState :=
  (List.range n).foldl (fun st t => (processSnapshot exOracle st (vpinTradeSnap t)).1)
    (initEngineState 0)

/-- Bid volume of the spoofing trace: a calm volume of 10, with spike-then-cancel pairs
at steps 93/94 and 95/96 (0-indexed). -/
def spoofTraceVol (t : ℕ) : ℚ :=
  if t = 93 ∨ t = 95 then 100 else if t = 94 ∨ t = 96 then 1 else 10

/-- Bid book of the spoofing trace at step `t` (price pinned at 100). -/
def spoofTraceBids (t : ℕ) : List (ℚ × ℚ) := [(100, spoofTraceVol t)]

/-- Spoofing-detector state after `n` steps of the trace (empty ask book side volume,
inert sqrt oracle, initial `AnalyticsEngine` sub-state). -/
def spoofRunN (n : ℕ) : SpoofState :=
  (List.range n).foldl
    (fun st t => (spoofStep (fun _ => 0) st (spoofTraceBids t) [(101, 0)]).st)
    ⟨10, [], 0, [], [], []⟩

/-- Medium-severity SPOOFING alert used to exercise the escalation path. -/
def exEscAlert : Alert := ⟨"SPOOFING", "medium", .regimeCrisis⟩

/-- Alert used to exercise the dedup path. -/
def exDedupAlert : Alert := ⟨"HEAVY_IMBALANCE", "high", .regimeCrisis⟩

/-- Alert-manager state in which `exDedupAlert` was accepted at time 0. -/
def exDedupState : AlertState := ⟨[(("HEAVY_IMBALANCE", AMsg.regimeCrisis), 0)], [], []⟩

/-! ## Helper lemmas -/

theorem assocGet_assocSet_self [DecidableEq κ] (m : List (κ × β)) (k : κ) (v : β) :
    assocGet (assocSet m k v) k = some v := by
  induction m with
  | nil => simp [assocSet, assocGet]
  | cons e t ih =>
      by_cases h : e.1 = k
      · simp [assocSet, assocGet, h]
      · simp [assocSet, assocGet, h, ih]

theorem headD_append_of_ne_nil (b e : List α) (d : α) (h : b ≠ []) :
    (b ++ e).headD d = b.headD d := by
  cases b with
  | nil => exact absurd rfl h
  | cons x t => rfl

theorem isEmpty_append_of_ne_nil (b e : List α) (h : b ≠ []) :
    (b ++ e).isEmpty = b.isEmpty := by
  cases b with
  | nil => exact absurd rfl h
  | cons x t => rfl

theorem levelErrors_append (p v : ℕ → VErr) (b e : List Level) (h : 10 ≤ b.length) :
    levelErrors p v (b ++ e) = levelErrors p v b := by
  unfold levelErrors
  rw [List.take_append_of_le_length h]

theorem pyRound_mono (d : ℕ) {x y : ℚ} (h : x ≤ y) : pyRound d x ≤ pyRound d y := by
  unfold pyRound
  have hd : (0 : ℚ) < (10 : ℚ) ^ d := by positivity
  have hm : x * (10 : ℚ) ^ d ≤ y * (10 : ℚ) ^ d :=
    mul_le_mul_of_nonneg_right h (le_of_lt hd)
  have hr : round (x * (10 : ℚ) ^ d) ≤ round (y * (10 : ℚ) ^ d) := by
    rw [round_eq, round_eq]
    exact Int.floor_mono (by linarith)
  exact (div_le_div_iff_of_pos_right hd).mpr (by exact_mod_cast hr)

theorem pyRound_intCast (d : ℕ) (n : ℤ) : pyRound d (n : ℚ) = n := by
  unfold pyRound
  have hd : ((10 : ℚ) ^ d) ≠ 0 := by positivity
  have : ((n : ℚ) * (10 : ℚ) ^ d) = ((n * 10 ^ d : ℤ) : ℚ) := by push_cast; ring
  rw [this, round_intCast]
  push_cast
  field_simp

theorem meanQ_nonneg (l : List ℚ) (h : ∀ x ∈ l, 0 ≤ x) : 0 ≤ meanQ l := by
  unfold meanQ
  exact div_nonneg (List.sum_nonneg h) (by positivity)

theorem meanQ_le_one (l : List ℚ) (h : ∀ x ∈ l, x ≤ 1) : meanQ l ≤ 1 := by
  unfold meanQ
  rcases l.eq_nil_or_concat with rfl | _
  · simp
  · have hsum : l.sum ≤ (l.length : ℚ) := by
      calc l.sum ≤ l.length • (1 : ℚ) := List.sum_le_card_nsmul l 1 h
      _ = (l.length : ℚ) := by simp
    rcases Nat.eq_zero_or_pos l.length with hz | hp
    · simp [hz]
    · rw [div_le_one (by exact_mod_cast hp)]
      exact hsum

theorem mem_ringAppend {n : ℕ} {l : List α} {y x : α} (h : x ∈ ringAppend n l y) :
    x ∈ l ∨ x = y := by
  unfold ringAppend at h
  have h' : x ∈ l ++ [y] := by
    by_cases hc : l.length < n
    · rwa [if_pos hc] at h
    · rw [if_neg hc] at h
      exact List.mem_of_mem_drop h
  rcases List.mem_append.1 h' with h1 | h1
  · exact Or.inl h1
  · exact Or.inr (List.mem_singleton.1 h1)

theorem clampQ_mem (x lo hi : ℚ) (h : lo ≤ hi) :
    lo ≤ clampQ x lo hi ∧ clampQ x lo hi ≤ hi := by
  unfold clampQ
  constructor
  · exact le_min (le_max_right x lo) h
  · exact min_le_right _ _

theorem spoofRisk_clamp (vv ev size : ℚ) (hvv : 0 ≤ vv) (hev : 0 ≤ ev)
    (hsize : 0 ≤ size) :
    min (min (vv * 50) 30 + min (ev * 5) 40 + size) 100 =
    clampQ (min (vv * 50) 30 + min (ev * 5) 40 + size) 0 100 := by
  unfold clampQ
  rw [max_eq_left]
  have h1 : 0 ≤ min (vv * 50) 30 := le_min (by positivity) (by norm_num)
  have h2 : 0 ≤ min (ev * 5) 40 := le_min (by positivity) (by norm_num)
  linarith

theorem vpinComplete_ring_mem (hist : List ℚ) (buy sell : ℚ)
    (hhist : ∀ x ∈ hist, 0 ≤ x ∧ x ≤ 1) (hb : 0 ≤ buy) (hs : 0 ≤ sell) :
    ∀ x ∈ (if buy + sell > 0 then ringAppend 50 hist (|buy - sell| / (buy + sell)) else hist),
      0 ≤ x ∧ x ≤ 1 := by
  split
  · next htot =>
      intro x hx
      rcases mem_ringAppend hx with hold | rfl
      · exact hhist x hold
      · constructor
        · exact div_nonneg (abs_nonneg _) (le_of_lt htot)
        · rw [div_le_one htot, abs_le]
          constructor <;> linarith
  · exact hhist

theorem vpinValue_bounds (R : List ℚ) (hR : ∀ x ∈ R, 0 ≤ x ∧ x ≤ 1) :
    0 ≤ (if R.length ≥ 10 then meanQ R else 0) ∧
    (if R.length ≥ 10 then meanQ R else 0) ≤ 1 := by
  split
  · exact ⟨meanQ_nonneg _ fun x hx => (hR x hx).1, meanQ_le_one _ fun x hx => (hR x hx).2⟩
  · norm_num

theorem vpinUpdate_spec (vs : VpinState) (side : TradeSide) (tv : ℚ)
    (hring : ∀ x ∈ vs.bucketHistory, 0 ≤ x ∧ x ≤ 1)
    (hbuy : 0 ≤ vs.bucketBuy) (hsell : 0 ≤ vs.bucketSell) :
    (0 ≤ (vpinUpdate vs side tv).2 ∧ (vpinUpdate vs side tv).2 ≤ 1) ∧
    (∀ x ∈ (vpinUpdate vs side tv).1.bucketHistory, 0 ≤ x ∧ x ≤ 1) ∧
    (¬ (0 < tv ∧ bucketSize ≤ vs.bucketVol + tv) → (vpinUpdate vs side tv).2 = 0) ∧
    (0 < tv ∧ bucketSize ≤ vs.bucketVol + tv →
      (vpinUpdate vs side tv).1.bucketVol = 0 ∧
      (vpinUpdate vs side tv).1.bucketBuy = 0 ∧
      (vpinUpdate vs side tv).1.bucketSell = 0 ∧
      (10 ≤ (vpinUpdate vs side tv).1.bucketHistory.length →
        (vpinUpdate vs side tv).2 = meanQ (vpinUpdate vs side tv).1.bucketHistory)) := by
  by_cases htv : tv > 0
  · by_cases hvol : vs.bucketVol + tv ≥ bucketSize
    · have hb : 0 ≤ (if side = TradeSide.buy then vs.bucketBuy + tv else vs.bucketBuy) := by
        split <;> linarith
      have hs : 0 ≤ (if side = TradeSide.sell then vs.bucketSell + tv else vs.bucketSell) := by
        split <;> linarith
      have hmem := vpinComplete_ring_mem vs.bucketHistory _ _ hring hb hs
      have hres : vpinUpdate vs side tv =
          (⟨0, 0, 0,
            if (if side = TradeSide.buy then vs.bucketBuy + tv else vs.bucketBuy) +
                (if side = TradeSide.sell then vs.bucketSell + tv else vs.bucketSell) > 0 then
              ringAppend 50 vs.bucketHistory
                (|(if side = TradeSide.buy then vs.bucketBuy + tv else vs.bucketBuy) -
                  (if side = TradeSide.sell then vs.bucketSell + tv else vs.bucketSell)| /
                  ((if side = TradeSide.buy then vs.bucketBuy + tv else vs.bucketBuy) +
                   (if side = TradeSide.sell then vs.bucketSell + tv else vs.bucketSell)))
            else vs.bucketHistory⟩,
           if (if (if side = TradeSide.buy then vs.bucketBuy + tv else vs.bucketBuy) +
                (if side = TradeSide.sell then vs.bucketSell + tv else vs.bucketSell) > 0 then
              ringAppend 50 vs.bucketHistory
                (|(if side = TradeSide.buy then vs.bucketBuy + tv else vs.bucketBuy) -
                  (if side = TradeSide.sell then vs.bucketSell + tv else vs.bucketSell)| /
                  ((if side = TradeSide.buy then vs.bucketBuy + tv else vs.bucketBuy) +
                   (if side = TradeSide.sell then vs.bucketSell + tv else vs.bucketSell)))
            else vs.bucketHistory).length ≥ 10 then
             meanQ (if (if side = TradeSide.buy then vs.bucketBuy + tv else vs.bucketBuy) +
                (if side = TradeSide.sell then vs.bucketSell + tv else vs.bucketSell) > 0 then
              ringAppend 50 vs.bucketHistory
                (|(if side = TradeSide.buy then vs.bucketBuy + tv else vs.bucketBuy) -
                  (if side = TradeSide.sell then vs.bucketSell + tv else vs.bucketSell)| /
                  ((if side = TradeSide.buy then vs.bucketBuy + tv else vs.bucketBuy) +
                   (if side = TradeSide.sell then vs.bucketSell + tv else vs.bucketSell)))
            else vs.bucketHistory)
           else 0) := by
        unfold vpinUpdate
        rw [if_pos htv, if_pos hvol]
      rw [hres]
      exact ⟨vpinValue_bounds _ hmem, hmem, fun hc => absurd ⟨htv, hvol⟩ hc,
        fun _ => ⟨rfl, rfl, rfl, fun h10 => by rw [if_pos h10]⟩⟩
    · have hres : vpinUpdate vs side tv =
          (⟨vs.bucketVol + tv,
            if side = TradeSide.buy then vs.bucketBuy + tv else vs.bucketBuy,
            if side = TradeSide.sell then vs.bucketSell + tv else vs.bucketSell,
            vs.bucketHistory⟩, 0) := by
        unfold vpinUpdate
        rw [if_pos htv, if_neg hvol]
      rw [hres]
      exact ⟨⟨le_refl 0, by norm_num⟩, hring, fun _ => rfl,
        fun hc => absurd hc.2 hvol⟩
  · have hres : vpinUpdate vs side tv = (vs, 0) := by
      unfold vpinUpdate
      rw [if_neg htv]
    rw [hres]
    exact ⟨⟨le_refl 0, by norm_num⟩, hring, fun _ => rfl, fun hc => absurd hc.1 htv⟩

/-! ## Claim C8 — spoofing counter and risk -/

/-- C8, counterexample: in a 102-tick trace with two spoofing events around tick 95
and none afterwards, the event counter reads 2 after 100 ticks and then decays on BOTH
tick 101 and tick 102 (no events detected on either): once the bounded risk ring
reaches its 100-entry capacity, `len(ring) % 10 == 0` holds on every tick, so the
counter decays every tick — not "by exactly 1 every 10 processed ticks". -/
theorem spoofing_decay_counterexample :
    (spoofRunN 100).spoofEvents = 2 ∧
    (spoofRunN 101).spoofEvents = 1 ∧
    (spoofRunN 102).spoofEvents = 0 ∧
    (spoofStep (fun _ => 0) (spoofRunN 100) (spoofTraceBids 100) [(101, 0)]).detected = false ∧
    (spoofStep (fun _ => 0) (spoofRunN 101) (spoofTraceBids 101) [(101, 0)]).detected = false :=
  ⟨by with_unfolding_all rfl, by with_unfolding_all rfl, by with_unfolding_all rfl,
   by with_unfolding_all rfl, by with_unfolding_all rfl⟩

/-- C8, amended: on each tick the spoofing event counter increments by 1 per detected
L1 cancel-without-move event (per side), and then decays by exactly 1 (floored at 0,
via the truncated natural subtraction) on ticks where the current length of the
risk ring — one entry per processed tick, capped at 100 — is divisible by 10, i.e. on
ticks 1, 11, …, 91 and on every tick from the 101st on; the emitted spoofing risk
equals `clip(min(volume_volatility·50, 30) + min(events·5, 40) + size, 0, 100)` with
`events` counted after this tick's increments and before the decay, and the size
component 30 / 15 / 0 by the `4×` / `2×` average-L1-volume thresholds; the risk always
lies in `[0, 100]`. -/
theorem spoofing_risk_characterization (sq : ℚ → ℚ) (s : SpoofState)
    (bids asks : List (ℚ × ℚ)) (l1 avg : ℚ) (d : ℕ)
    (hl1 : l1 = ((bids.headD (0, 0)).2 + (asks.headD (0, 0)).2) / 2)
    (havg : avg = (1 - ewmaAlpha) * s.avgL1Vol + ewmaAlpha * l1)
    (hd : d = (if spoofDetect avg s.prevBids.head? bids.head? then 1 else 0) +
              (if spoofDetect avg s.prevAsks.head? asks.head? then 1 else 0))
    (hsq : ∀ x, 0 ≤ sq x)
    (hhist : ∀ x ∈ s.volVolHist, 0 ≤ x)
    (hl1n : 0 ≤ l1) :
    ((spoofStep sq s bids asks).st.spoofEvents =
      if s.riskHist.length % 10 = 0 then s.spoofEvents + d - 1 else s.spoofEvents + d) ∧
    0 ≤ (spoofStep sq s bids asks).volVolatility ∧
    ((spoofStep sq s bids asks).risk =
      clampQ (min ((spoofStep sq s bids asks).volVolatility * 50) 30 +
        min (((s.spoofEvents + d : ℕ) : ℚ) * 5) 40 +
        (if l1 > 4 * avg then (30 : ℚ) else if l1 > 2 * avg then 15 else 0)) 0 100) ∧
    0 ≤ (spoofStep sq s bids asks).risk ∧ (spoofStep sq s bids asks).risk ≤ 100 := by
  subst hd
  subst havg
  subst hl1
  have hvv : 0 ≤ (spoofStep sq s bids asks).volVolatility := by
    have hform : (spoofStep sq s bids asks).volVolatility =
        if (ringAppend 20 s.volVolHist
            (((bids.headD (0, 0)).2 + (asks.headD (0, 0)).2) / 2)).length > 5 then
          sq (varQ (ringAppend 20 s.volVolHist
            (((bids.headD (0, 0)).2 + (asks.headD (0, 0)).2) / 2))) /
            (meanQ (ringAppend 20 s.volVolHist
              (((bids.headD (0, 0)).2 + (asks.headD (0, 0)).2) / 2)) + 1 / 1000000)
        else 0 := rfl
    rw [hform]
    split
    · refine div_nonneg (hsq _) ?_
      have hm : 0 ≤ meanQ (ringAppend 20 s.volVolHist
          (((bids.headD (0, 0)).2 + (asks.headD (0, 0)).2) / 2)) := by
        refine meanQ_nonneg _ fun x hx => ?_
        rcases mem_ringAppend hx with hold | rfl
        · exact hhist x hold
        · exact hl1n
      linarith
    · exact le_refl 0
  have hrisk_lhs : (spoofStep sq s bids asks).risk =
      min (min ((spoofStep sq s bids asks).volVolatility * 50) 30 +
        min (((if spoofDetect ((1 - ewmaAlpha) * s.avgL1Vol +
              ewmaAlpha * (((bids.headD (0, 0)).2 + (asks.headD (0, 0)).2) / 2))
              s.prevAsks.head? asks.head? = true then
            (if spoofDetect ((1 - ewmaAlpha) * s.avgL1Vol +
                ewmaAlpha * (((bids.headD (0, 0)).2 + (asks.headD (0, 0)).2) / 2))
                s.prevBids.head? bids.head? = true then
              s.spoofEvents + 1 else s.spoofEvents) + 1
          else
            (if spoofDetect ((1 - ewmaAlpha) * s.avgL1Vol +
                ewmaAlpha * (((bids.headD (0, 0)).2 + (asks.headD (0, 0)).2) / 2))
                s.prevBids.head? bids.head? = true then
              s.spoofEvents + 1 else s.spoofEvents) : ℕ) : ℚ) * 5) 40 +
        (if ((bids.headD (0, 0)).2 + (asks.headD (0, 0)).2) / 2 >
            4 * ((1 - ewmaAlpha) * s.avgL1Vol +
              ewmaAlpha * (((bids.headD (0, 0)).2 + (asks.headD (0, 0)).2) / 2)) then (30 : ℚ)
         else if ((bids.headD (0, 0)).2 + (asks.headD (0, 0)).2) / 2 >
            2 * ((1 - ewmaAlpha) * s.avgL1Vol +
              ewmaAlpha * (((bids.headD (0, 0)).2 + (asks.headD (0, 0)).2) / 2)) then 15
         else 0)) 100 := rfl
  have hE2 : (if spoofDetect ((1 - ewmaAlpha) * s.avgL1Vol +
        ewmaAlpha * (((bids.headD (0, 0)).2 + (asks.headD (0, 0)).2) / 2))
        s.prevAsks.head? asks.head? = true then
      (if spoofDetect ((1 - ewmaAlpha) * s.avgL1Vol +
          ewmaAlpha * (((bids.headD (0, 0)).2 + (asks.headD (0, 0)).2) / 2))
          s.prevBids.head? bids.head? = true then
        s.spoofEvents + 1 else s.spoofEvents) + 1
    else
      (if spoofDetect ((1 - ewmaAlpha) * s.avgL1Vol +
          ewmaAlpha * (((bids.headD (0, 0)).2 + (asks.headD (0, 0)).2) / 2))
          s.prevBids.head? bids.head? = true then
        s.spoofEvents + 1 else s.spoofEvents)) =
      s.spoofEvents +
        ((if spoofDetect ((1 - ewmaAlpha) * s.avgL1Vol +
            ewmaAlpha * (((bids.headD (0, 0)).2 + (asks.headD (0, 0)).2) / 2))
            s.prevBids.head? bids.head? then 1 else 0) +
         (if spoofDetect ((1 - ewmaAlpha) * s.avgL1Vol +
            ewmaAlpha * (((bids.headD (0, 0)).2 + (asks.headD (0, 0)).2) / 2))
            s.prevAsks.head? asks.head? then 1 else 0)) := by
    split <;> split <;> omega
  have hsize : (0 : ℚ) ≤
      (if ((bids.headD (0, 0)).2 + (asks.headD (0, 0)).2) / 2 >
          4 * ((1 - ewmaAlpha) * s.avgL1Vol +
            ewmaAlpha * (((bids.headD (0, 0)).2 + (asks.headD (0, 0)).2) / 2)) then (30 : ℚ)
       else if ((bids.headD (0, 0)).2 + (asks.headD (0, 0)).2) / 2 >
          2 * ((1 - ewmaAlpha) * s.avgL1Vol +
            ewmaAlpha * (((bids.headD (0, 0)).2 + (asks.headD (0, 0)).2) / 2)) then 15
       else 0) := by
    split
    · norm_num
    · split <;> norm_num
  refine ⟨?_, hvv, ?_, ?_, ?_⟩
  · unfold spoofStep
    cases hbd : spoofDetect ((1 - ewmaAlpha) * s.avgL1Vol +
        ewmaAlpha * (((bids.headD (0, 0)).2 + (asks.headD (0, 0)).2) / 2))
        s.prevBids.head? bids.head? <;>
    cases had : spoofDetect ((1 - ewmaAlpha) * s.avgL1Vol +
        ewmaAlpha * (((bids.headD (0, 0)).2 + (asks.headD (0, 0)).2) / 2))
        s.prevAsks.head? asks.head? <;>
    (simp only [hbd, had]
     simp only [Bool.false_eq_true, if_false, if_true, reduceIte]
     try (split <;> omega)
     try omega)
  · rw [hrisk_lhs, hE2]
    exact spoofRisk_clamp _ _ _ hvv (Nat.cast_nonneg _) hsize
  · rw [hrisk_lhs]
    refine le_min ?_ (by norm_num)
    have h1 : 0 ≤ min ((spoofStep sq s bids asks).volVolatility * 50) 30 :=
      le_min (by positivity) (by norm_num)
    have h2 : (0 : ℚ) ≤ min (((if spoofDetect ((1 - ewmaAlpha) * s.avgL1Vol +
          ewmaAlpha * (((bids.headD (0, 0)).2 + (asks.headD (0, 0)).2) / 2))
          s.prevAsks.head? asks.head? = true then
        (if spoofDetect ((1 - ewmaAlpha) * s.avgL1Vol +
            ewmaAlpha * (((bids.headD (0, 0)).2 + (asks.headD (0, 0)).2) / 2))
            s.prevBids.head? bids.head? = true then
          s.spoofEvents + 1 else s.spoofEvents) + 1
      else
        (if spoofDetect ((1 - ewmaAlpha) * s.avgL1Vol +
            ewmaAlpha * (((bids.headD (0, 0)).2 + (asks.headD (0, 0)).2) / 2))
            s.prevBids.head? bids.head? = true then
          s.spoofEvents + 1 else s.spoofEvents) : ℕ) : ℚ) * 5) 40 :=
      le_min (by positivity) (by norm_num)
    linarith
  · rw [hrisk_lhs]
    exact min_le_right _ _

/-- C8, witness: on the first tick of a fresh session (empty risk ring, so the decay
condition `0 % 10 = 0` fires) with no detection, the counter stays floored at 0 and
the risk lies in `[0, 100]`. -/
theorem spoofing_risk_characterization_witness :
    (spoofStep (fun _ => 0) ⟨10, [], 0, [], [], []⟩ [(100, 10)] [(101, 0)]).st.spoofEvents = 0 ∧
    0 ≤ (spoofStep (fun _ => 0) ⟨10, [], 0, [], [], []⟩ [(100, 10)] [(101, 0)]).risk ∧
    (spoofStep (fun _ => 0) ⟨10, [], 0, [], [], []⟩ [(100, 10)] [(101, 0)]).risk ≤ 100 := by
  have h := spoofing_risk_characterization (fun _ => 0) ⟨10, [], 0, [], [], []⟩
    [(100, 10)] [(101, 0)] 5 (39 / 4) 0
    (by with_unfolding_all rfl) (by with_unfolding_all rfl) (by with_unfolding_all rfl)
    (fun x => le_refl 0)
    (by intro x hx; exact absurd hx (List.not_mem_nil x))
    (by norm_num)
  refine ⟨?_, h.2.2.2.1, h.2.2.2.2⟩
  rw [h.1]
  with_unfolding_all rfl

/-! ## Claim C9 — set_speed clamping -/

/-- C9, counterexample: `set_speed(50)` stores 10, not `max(1, min(50, 100)) = 50`:
the source clamps to `[1, 10]`, not to the `[1, 100]` range the claim states. -/
theorem set_speed_counterexample :
    (setSpeed ⟨1, 0⟩ (.intVal 50) 0).speed = 10 ∧
    max 1 (min (50 : ℤ) 100) = 50 ∧ (10 : ℤ) ≠ 50 := by
  decide

/-- C9, amended: `set_speed` stores the `int()`-coerced input clamped to `[1, 10]`
(so the stored speed always lies in `[1, 10]`), and an input on which `int()` raises
is coerced to 1. -/
theorem set_speed_amended (sess : UserSession) (v : ℤ) (now : ℚ) :
    (setSpeed sess (.intVal v) now).speed = max 1 (min v 10) ∧
    1 ≤ (setSpeed sess (.intVal v) now).speed ∧
    (setSpeed sess (.intVal v) now).speed ≤ 10 ∧
    (setSpeed sess .nonNumeric now).speed = 1 := by
  refine ⟨rfl, le_max_left _ _, ?_, ?_⟩
  · exact max_le (by norm_num) (min_le_right _ _)
  · show max (1 : ℤ) (min 1 10) = 1
    decide

/-! ## Claim C2 — primary-engine failure handling -/

/-- C2, counterexample: a primary failure of the "malformed reply" kind (any exception
other than `grpc.RpcError` / `ConnectionError` / `TimeoutError`) falls back with the
fallback tag but leaves the consecutive-failure counter unchanged at 0, contradicting
"for every primary-engine failure of any kind the counter is incremented". -/
theorem engine_fallback_counterexample :
    workerStep ⟨.cpp, true, 0⟩ .otherError = (⟨.cpp, true, 0⟩, "python_fallback") ∧
    (workerStep ⟨.cpp, true, 0⟩ .otherError).1.failures = 0 := by
  decide

/-- C2, amended: in `analytics_worker`, RPC and connection/timeout failures increment
the counter, tag the snapshot `python_fallback`, and at the ceiling of 5 demote the
mode to Python and drop the client; any other failure (e.g. a malformed reply) falls
back with the same tag but leaves the counter untouched; a primary success resets the
counter to 0; and once the mode is Python every subsequent snapshot is processed by
Python (tag `python`) with no transition back inside the worker. -/
theorem engine_fallback_amended (st : WorkerState)
    (h1 : st.engineMode = .cpp) (h2 : st.cppClient = true) :
    (∀ b : Bool,
      (workerStep st (.success b)).1 = { st with failures := 0 } ∧
      (workerStep st (.success b)).2 = (if b then "cpp+python_advanced" else "cpp")) ∧
    (∀ out, out = CppOutcome.rpcError ∨ out = CppOutcome.connError →
      (workerStep st out).1.failures = st.failures + 1 ∧
      (workerStep st out).2 = "python_fallback" ∧
      (maxCppFailures ≤ st.failures + 1 →
        (workerStep st out).1.engineMode = .python ∧ (workerStep st out).1.cppClient = false) ∧
      (st.failures + 1 < maxCppFailures →
        (workerStep st out).1 = { st with failures := st.failures + 1 })) ∧
    ((workerStep st .otherError).1 = st ∧ (workerStep st .otherError).2 = "python_fallback") ∧
    (∀ (st' : WorkerState) (out : CppOutcome), st'.engineMode = .python →
      (workerStep st' out).1.engineMode = .python ∧ (workerStep st' out).2 = "python") := by
  have hc : (st.engineMode = EngineMode.cpp ∧ st.cppClient = true) := ⟨h1, h2⟩
  refine ⟨?_, ?_, ?_, ?_⟩
  · intro b
    simp [workerStep, hc]
  · rintro out (rfl | rfl) <;>
    · by_cases hf : maxCppFailures ≤ st.failures + 1
      · constructor
        · simp [workerStep, hc, if_pos hf]
        · refine ⟨by simp [workerStep, hc, if_pos hf], fun _ => by simp [workerStep, hc, if_pos hf], fun hlt => absurd hf (by omega)⟩
      · constructor
        · simp [workerStep, hc, if_neg hf]
        · refine ⟨by simp [workerStep, hc, if_neg hf], fun hge => absurd hge hf, fun _ => by simp [workerStep, hc, if_neg hf]⟩
  · constructor <;> simp [workerStep, hc]
  · intro st' out hpy
    have hne : ¬ (st'.engineMode = EngineMode.cpp ∧ st'.cppClient = true) := by
      rintro ⟨hcc, -⟩
      rw [hpy] at hcc
      exact EngineMode.noConfusion hcc
    simp [workerStep, hne, hpy]

/-- C2, witness: at four prior consecutive failures, an RPC failure demotes the mode
to Python and tags the snapshot as fallback. -/
theorem engine_fallback_amended_witness :
    (workerStep ⟨.cpp, true, 4⟩ .rpcError).1.engineMode = .python ∧
    (workerStep ⟨.cpp, true, 4⟩ .rpcError).2 = "python_fallback" := by
  have h := engine_fallback_amended ⟨.cpp, true, 4⟩ rfl rfl
  have h2 := h.2.1 .rpcError (Or.inl rfl)
  exact ⟨(h2.2.2.1 (by norm_num [maxCppFailures])).1, h2.2.1⟩

/-! ## Claim C7 — alert escalation -/

/-- C7, counterexample: three accepted medium-severity SPOOFING alerts reach the
escalation threshold (3); the third is bumped `medium → high` but its message is NOT
suffixed with the `[ESCALATED: n occurrences]` marker — the source adds the suffix
only on the `high → critical` bump. -/
theorem escalation_counterexample :
    (escalateSeverity (escalateSeverity (escalateSeverity AlertState.init exEscAlert).1
        exEscAlert).1 exEscAlert).2 = ⟨"SPOOFING", "high", AMsg.regimeCrisis⟩ ∧
    countOf (escalateSeverity (escalateSeverity (escalateSeverity AlertState.init
        exEscAlert).1 exEscAlert).1 exEscAlert).1.alertCounts "SPOOFING" = 3 := by
  decide

/-- C7, amended: for a type with a configured threshold, each accepted alert bumps the
per-type monotonic counter; once the counter reaches the threshold, a `high` alert is
escalated to `critical` with the message suffixed `[ESCALATED: n occurrences]` (`n` the
current counter value), while a `medium` alert is escalated to `high` with its message
left unchanged, and alerts of other severities pass through unmodified. -/
theorem escalation_amended (st : AlertState) (a : Alert) (th : ℕ)
    (hth : escalationThreshold a.type = some th) :
    countOf (escalateSeverity st a).1.alertCounts a.type = countOf st.alertCounts a.type + 1 ∧
    (th ≤ countOf st.alertCounts a.type + 1 →
      (a.severity = "high" →
        (escalateSeverity st a).2.severity = "critical" ∧
        (escalateSeverity st a).2.msg = .escalated a.msg (countOf st.alertCounts a.type + 1)) ∧
      (a.severity = "medium" →
        (escalateSeverity st a).2.severity = "high" ∧
        (escalateSeverity st a).2.msg = a.msg) ∧
      (a.severity ≠ "high" → a.severity ≠ "medium" → (escalateSeverity st a).2 = a)) ∧
    (countOf st.alertCounts a.type + 1 < th → (escalateSeverity st a).2 = a) := by
  unfold escalateSeverity
  refine ⟨?_, ?_, ?_⟩
  · simp only [countOf, assocGet_assocSet_self, Option.getD_some]
  · intro hge
    refine ⟨fun hh => ?_, fun hm => ?_, fun hh hm => ?_⟩
    · simp [hth, if_pos hge, hh]
    · have hh : a.severity ≠ "high" := by rw [hm]; decide
      simp [hth, if_pos hge, hh, hm]
    · simp [hth, if_pos hge, hh, hm]
  · intro hlt
    have : ¬ th ≤ countOf st.alertCounts a.type + 1 := by omega
    simp [hth, this]

/-! ## Claim C3 — alert deduplication -/

/-- C3: if an alert with a given `(type, message)` identity was accepted at time `t`
(so the dedup map holds `t` for its hash), then a batch of alerts with that same
identity arriving strictly less than the 5 s window after `t` is entirely suppressed:
the filtered output is empty, the audit ring and the per-type counters are untouched,
and the hash's stored timestamp still reads `t`; and whenever an alert is accepted,
its hash's stored timestamp is replaced by the arrival time. -/
theorem alert_dedup (st : AlertState) (alerts : List Alert) (a : Alert) (now t ts : ℚ)
    (hlook : assocGet st.recentAlerts (alertKey a) = some t)
    (hwin : now - t < dedupWindow)
    (hdup : ∀ b ∈ alerts, alertKey b = alertKey a) :
    processAlerts st alerts now ts = (st, []) ∧
    (∀ (st' : AlertState) (c : Alert),
      (shouldSuppress st' c now).1 = false →
      assocGet (shouldSuppress st' c now).2.recentAlerts (alertKey c) = some now) := by
  constructor
  · have main : ∀ l : List Alert, (∀ b ∈ l, alertKey b = alertKey a) →
        processAlerts st l now ts = (st, []) := by
      intro l
      induction l with
      | nil => intro _; rfl
      | cons b rest ih =>
          intro hdup'
          have hsup : shouldSuppress st b now = (true, st) := by
            simp [shouldSuppress, hdup' b (List.mem_cons_self b rest), hlook, hwin]
          have hstep : processAlertsStep now ts (st, []) b = (st, []) := by
            simp [processAlertsStep, hsup]
          have := ih fun b' hb' => hdup' b' (List.mem_cons_of_mem b hb')
          unfold processAlerts at this ⊢
          rw [List.foldl_cons, hstep]
          exact this
    exact main alerts hdup
  · intro st' c hfalse
    cases hg : assocGet st'.recentAlerts (alertKey c) with
    | none => simp [shouldSuppress, hg, assocGet_assocSet_self]
    | some lastSeen =>
        by_cases hw : now - lastSeen < dedupWindow
        · exfalso
          simp [shouldSuppress, hg, hw] at hfalse
        · simp [shouldSuppress, hg, hw, assocGet_assocSet_self]

/-- C3, witness: with `exDedupAlert` accepted at time 0, two further copies arriving at
time 3 (inside the 5 s window) are both suppressed, leaving state and output
untouched. -/
theorem alert_dedup_witness :
    processAlerts exDedupState [exDedupAlert, exDedupAlert] 3 7 = (exDedupState, []) :=
  (alert_dedup exDedupState [exDedupAlert, exDedupAlert] exDedupAlert 3 0 7
    (by with_unfolding_all rfl)
    (by norm_num [dedupWindow])
    (by decide)).1

/-! ## Claim C1 — fatal-validation early return -/

/-- C1: when a snapshot fails validation and its sanitized form fails re-validation,
`process_snapshot` returns the sanitized snapshot augmented with exactly one critical
`DATA_VALIDATION_ERROR` alert, adds no computed metric field (spread, obi, ofi,
microprice, vpin, regime, detector outputs all absent), and leaves the entire
per-session state — previous best quotes, EWMA baselines, price/feature rings, V-PIN
accumulators, alert state — unchanged. -/
theorem validation_early_return (o : Oracle) (st : EngineState) (s : RawSnapshot)
    (h1 : (validateSnapshot s).1 = false)
    (h2 : (validateSnapshot (sanitizeSnapshot s)).1 = false) :
    processSnapshot o st s =
      (st, earlyReturn (sanitizeSnapshot s) (validateSnapshot (sanitizeSnapshot s)).2) ∧
    (processSnapshot o st s).1 = st ∧
    (processSnapshot o st s).2.anomalies =
      [⟨"DATA_VALIDATION_ERROR", "critical",
        .validationError ((validateSnapshot (sanitizeSnapshot s)).2.take 3)⟩] ∧
    (processSnapshot o st s).2.snap = sanitizeSnapshot s ∧
    (processSnapshot o st s).2.spread = none ∧
    (processSnapshot o st s).2.obi = none ∧
    (processSnapshot o st s).2.ofi = none ∧
    (processSnapshot o st s).2.microprice = none ∧
    (processSnapshot o st s).2.vpin = none ∧
    (processSnapshot o st s).2.regime = none ∧
    (processSnapshot o st s).2.spoofingRisk = none ∧
    (processSnapshot o st s).2.gapCount = none ∧
    (processSnapshot o st s).2.liquidityGaps = none := by
  have hmain : processSnapshot o st s =
      (st, earlyReturn (sanitizeSnapshot s) (validateSnapshot (sanitizeSnapshot s)).2) := by
    unfold processSnapshot
    simp [h1, h2]
  refine ⟨hmain, ?_, ?_, ?_, ?_, ?_, ?_, ?_, ?_, ?_, ?_, ?_, ?_⟩ <;> (rw [hmain]; try rfl)

/-- C1, witness: a snapshot whose best bid price is negative fails validation, survives
sanitization unchanged (negative prices are valid numbers), fails re-validation, and is
returned with the single alert and untouched state. -/
theorem validation_early_return_witness :
    (validateSnapshot exBadSnap).1 = false ∧
    (processSnapshot exOracle (initEngineState 0) exBadSnap).1 = initEngineState 0 ∧
    (processSnapshot exOracle (initEngineState 0) exBadSnap).2.anomalies.length = 1 := by
  have h := validation_early_return exOracle (initEngineState 0) exBadSnap
    (by with_unfolding_all rfl) (by with_unfolding_all rfl)
  refine ⟨by with_unfolding_all rfl, h.2.1, ?_⟩
  rw [h.2.2.1]
  rfl

/-! ## Claim C10 — validator inspects only the first 10 levels -/

/-- C10: for books whose first 10 levels per side are fixed, appending arbitrary deeper
levels (including NaN prices, non-positive prices, or negative volumes) does not change
the validator's verdict or error list at all, while the total-depth sums used by the
depth-shock detector keep folding those deeper levels in. -/
theorem validator_first10 (b a e1 e2 : List Level) (m : Option PyVal) (tv : ℚ)
    (ltp : Option ℚ) (ts : ℚ) (hb : b.length = 10) (ha : a.length = 10) :
    validateSnapshot ⟨some (b ++ e1), some (a ++ e2), m, tv, ltp, ts⟩ =
      validateSnapshot ⟨some b, some a, m, tv, ltp, ts⟩ ∧
    totalDepth (b ++ e1) = e1.foldl (fun acc l => acc + l.2.toQ) (totalDepth b) := by
  have hbne : b ≠ [] := by intro hnil; rw [hnil] at hb; simp at hb
  have hane : a ≠ [] := by intro hnil; rw [hnil] at ha; simp at ha
  constructor
  · unfold validateSnapshot
    simp only [Option.isNone_some, Option.getD_some]
    simp only [levelErrors_append VErr.bidPrice VErr.bidVolume b e1 (by omega),
        levelErrors_append VErr.askPrice VErr.askVolume a e2 (by omega),
        headD_append_of_ne_nil b e1 (.num 0, .num 0) hbne,
        headD_append_of_ne_nil a e2 (.num 0, .num 0) hane,
        isEmpty_append_of_ne_nil b e1 hbne,
        isEmpty_append_of_ne_nil a e2 hane]
  · unfold totalDepth
    exact List.foldl_append _ _ _ _

/-- C10, witness: ten clean levels per side pass; appending a level with a negative
volume and a level with a NaN price beyond the tenth leaves the snapshot valid, and the
total bid depth still sums over all 12 levels (600 − 5 + 7 = 602). -/
theorem validator_first10_witness :
    (validateSnapshot ⟨some (goodBids10 ++ deepBadTail), some (goodAsks10 ++ []),
      some (.num (201 / 2)), 0, none, 0⟩).1 = true ∧
    totalDepth (goodBids10 ++ deepBadTail) = 602 := by
  have h := validator_first10 goodBids10 goodAsks10 deepBadTail []
    (some (.num (201 / 2))) 0 none 0 (by decide) (by decide)
  constructor
  · rw [h.1]
    with_unfolding_all rfl
  · rw [h.2]
    with_unfolding_all rfl

/-! ## Claim C6 — microprice bounds -/

/-- C6: for non-negative L1 quantities and an uncrossed book (`best_bid < best_ask`,
as validation guarantees), the computed microprice lies in `[best_bid, best_ask]`; it
equals the quantity-weighted combination when the total L1 quantity exceeds the `1e-9`
safety threshold and the midpoint otherwise. -/
theorem microprice_bounds (bb qb ba qa : ℚ) (hqb : 0 ≤ qb) (hqa : 0 ≤ qa)
    (hlt : bb < ba) :
    bb ≤ computeMicroprice bb qb ba qa ∧ computeMicroprice bb qb ba qa ≤ ba ∧
    (1 / 10 ^ 9 < qb + qa →
      computeMicroprice bb qb ba qa = (qb * ba + qa * bb) / (qb + qa)) ∧
    (¬ 1 / 10 ^ 9 < qb + qa → computeMicroprice bb qb ba qa = (ba + bb) / 2) := by
  unfold computeMicroprice
  by_cases h : (1 : ℚ) / 10 ^ 9 < qb + qa
  · have hpos : (0 : ℚ) < qb + qa := lt_trans (by norm_num) h
    rw [if_pos h]
    refine ⟨?_, ?_, fun _ => rfl, fun hc => absurd h hc⟩
    · rw [le_div_iff₀ hpos]
      nlinarith [mul_le_mul_of_nonneg_left (le_of_lt hlt) hqb]
    · rw [div_le_iff₀ hpos]
      nlinarith [mul_le_mul_of_nonneg_left (le_of_lt hlt) hqa]
  · rw [if_neg h]
    exact ⟨by linarith, by linarith, fun hc => absurd hc h, fun _ => rfl⟩

/-- C6, witness: concrete book `best_bid = 100 (qty 5)`, `best_ask = 101 (qty 10)`. -/
theorem microprice_bounds_witness :
    (100 : ℚ) ≤ computeMicroprice 100 5 101 10 ∧ computeMicroprice 100 5 101 10 ≤ 101 := by
  have h := microprice_bounds 100 5 101 10 (by norm_num) (by norm_num) (by norm_num)
  exact ⟨h.1, h.2.1⟩

/-! ## Claim C4 — V-PIN emission -/

/-- C4, counterexample: after ten one-sided bucket-completing trades the
order-imbalance ring holds ten entries of 1 (mean 1), and the tenth snapshot indeed
emitted `vpin = 1`; but the next processed snapshot, which carries no trade, emits
`vpin = 0` even though the ring still holds ten entries with mean 1 — the emitted vpin
is NOT the ring mean "for every processed snapshot" with a full ring, only on
bucket-completing ticks. -/
theorem vpin_emission_counterexample :
    (vpinRunState 10).vpin.bucketHistory = List.replicate 10 1 ∧
    meanQ (vpinRunState 10).vpin.bucketHistory = 1 ∧
    (processSnapshot exOracle (vpinRunState 9) (vpinTradeSnap 9)).2.vpin = some 1 ∧
    (processSnapshot exOracle (vpinRunState 10) vpinNoTradeSnap).2.vpin = some 0 ∧
    ((0 : ℚ) ≠ 1) :=
  ⟨by with_unfolding_all rfl, by with_unfolding_all rfl, by with_unfolding_all rfl,
   by with_unfolding_all rfl, by norm_num⟩

/-- C4, amended: for every validated snapshot, the emitted `vpin` equals
`round(v, 4)` where `v` is the value produced by the V-PIN bucket update: `v` is 0
unless this snapshot's trade completes the current bucket (`trade_volume > 0` and the
accumulated volume reaches `B = 1000`), in which case the bucket order imbalance
`|buy − sell| / (buy + sell) ∈ [0, 1]` is appended to the ring (when `buy + sell > 0`)
and `v` is the ring mean once the ring has at least 10 entries (else 0); on completion
all accumulators reset to 0 with no carry-over; and the emitted vpin always lies in
`[0, 1]`. -/
theorem vpin_characterization (o : Oracle) (st : EngineState) (s : RawSnapshot)
    (hv : (validateSnapshot s).1 = true)
    (hring : ∀ x ∈ st.vpin.bucketHistory, 0 ≤ x ∧ x ≤ 1)
    (hbuy : 0 ≤ st.vpin.bucketBuy) (hsell : 0 ≤ st.vpin.bucketSell) :
    (processSnapshot o st s).2.vpin =
      some (pyRound 4 (vpinUpdate st.vpin (tradeSideOf s) s.trade_volume).2) ∧
    (processSnapshot o st s).1.vpin = (vpinUpdate st.vpin (tradeSideOf s) s.trade_volume).1 ∧
    (∀ q, (processSnapshot o st s).2.vpin = some q → 0 ≤ q ∧ q ≤ 1) ∧
    (¬ (0 < s.trade_volume ∧ bucketSize ≤ st.vpin.bucketVol + s.trade_volume) →
      (vpinUpdate st.vpin (tradeSideOf s) s.trade_volume).2 = 0) ∧
    (0 < s.trade_volume ∧ bucketSize ≤ st.vpin.bucketVol + s.trade_volume →
      (vpinUpdate st.vpin (tradeSideOf s) s.trade_volume).1.bucketVol = 0 ∧
      (vpinUpdate st.vpin (tradeSideOf s) s.trade_volume).1.bucketBuy = 0 ∧
      (vpinUpdate st.vpin (tradeSideOf s) s.trade_volume).1.bucketSell = 0 ∧
      (10 ≤ (vpinUpdate st.vpin (tradeSideOf s) s.trade_volume).1.bucketHistory.length →
        (vpinUpdate st.vpin (tradeSideOf s) s.trade_volume).2 =
          meanQ (vpinUpdate st.vpin (tradeSideOf s) s.trade_volume).1.bucketHistory)) ∧
    (∀ x ∈ (vpinUpdate st.vpin (tradeSideOf s) s.trade_volume).1.bucketHistory,
      0 ≤ x ∧ x ≤ 1) := by
  have hspec := vpinUpdate_spec st.vpin (tradeSideOf s) s.trade_volume hring hbuy hsell
  have hps : processSnapshot o st s = processValid o st s := by
    unfold processSnapshot
    simp [hv]
  have hemit : (processSnapshot o st s).2.vpin =
      some (pyRound 4 (vpinUpdate st.vpin (tradeSideOf s) s.trade_volume).2) := by
    rw [hps]
    rfl
  have hstate : (processSnapshot o st s).1.vpin =
      (vpinUpdate st.vpin (tradeSideOf s) s.trade_volume).1 := by
    rw [hps]
    rfl
  have e0 : pyRound 4 (0 : ℚ) = 0 := by
    have := pyRound_intCast 4 0
    push_cast at this
    exact this
  have e1 : pyRound 4 (1 : ℚ) = 1 := by
    have := pyRound_intCast 4 1
    push_cast at this
    exact this
  refine ⟨hemit, hstate, ?_, hspec.2.2.1, hspec.2.2.2, hspec.2.1⟩
  intro q hq
  rw [hemit] at hq
  have hqe : q = pyRound 4 (vpinUpdate st.vpin (tradeSideOf s) s.trade_volume).2 :=
    (Option.some.inj hq).symm
  constructor
  · rw [hqe]
    calc (0 : ℚ) = pyRound 4 0 := e0.symm
    _ ≤ _ := pyRound_mono 4 hspec.1.1
  · rw [hqe]
    calc pyRound 4 _ ≤ pyRound 4 1 := pyRound_mono 4 hspec.1.2
    _ = 1 := e1

/-- C4, witness: the first bucket-completing trade snapshot from a fresh session
resets the accumulators and emits `vpin = 0` (ring not yet at 10 entries), inside
`[0, 1]`. -/
theorem vpin_characterization_witness :
    (processSnapshot exOracle (initEngineState 0) (vpinTradeSnap 0)).2.vpin = some 0 ∧
    (processSnapshot exOracle (initEngineState 0) (vpinTradeSnap 0)).1.vpin.bucketVol = 0 := by
  have h := vpin_characterization exOracle (initEngineState 0) (vpinTradeSnap 0)
    (by with_unfolding_all rfl)
    (by intro x hx; exact absurd hx (List.not_mem_nil x))
    (le_refl 0) (le_refl 0)
  have hc : 0 < (vpinTradeSnap 0).trade_volume ∧
      bucketSize ≤ (initEngineState 0).vpin.bucketVol + (vpinTradeSnap 0).trade_volume := by
    constructor
    · show (0 : ℚ) < 1000
      norm_num
    · show (1000 : ℚ) ≤ 0 + 1000
      norm_num
  constructor
  · rw [h.1]
    with_unfolding_all rfl
  · rw [h.2.1]
    exact (h.2.2.2.2.1 hc).1

/-! ## Claim C5 — order-flow imbalance -/

/-- C5, counterexample: with previous quotes `(100, 101)` and quantities `(10, 5)`, a
snapshot with unchanged prices and bid quantity `10.024` has `OFI = 0.024` and
`clamp(OFI/500, −1, 1) = 3/62500`, but the emitted `ofi` field is `round(·, 4) = 0`:
the emitted value is the clamp rounded to 4 decimals, not the clamp itself. -/
theorem ofi_rounding_counterexample :
    (processSnapshot exOracle (initEngineState 0) exOfiSnap1).1.prevBestBid = some 100 ∧
    (processSnapshot exOracle (initEngineState 0) exOfiSnap1).1.prevBestAsk = some 101 ∧
    (processSnapshot exOracle (initEngineState 0) exOfiSnap1).1.prevBidQ = 10 ∧
    (processSnapshot exOracle (initEngineState 0) exOfiSnap1).1.prevAskQ = 5 ∧
    exOfiRun.2.ofi = some 0 ∧
    clampQ (computeOfi 100 101 10 5 100 (1253 / 125) 101 5 / 500) (-1) 1 = 3 / 62500 ∧
    (3 / 62500 : ℚ) ≠ 0 :=
  ⟨by with_unfolding_all rfl, by with_unfolding_all rfl, by with_unfolding_all rfl,
   by with_unfolding_all rfl, by with_unfolding_all rfl, by with_unfolding_all rfl,
   by norm_num⟩

/-- C5, amended: on every validated snapshot after the first, the emitted `ofi` equals
`round(clamp(OFI/500, −1, 1), 4)` where the raw OFI follows the claim's case analysis
against the previous best quotes (bid side: `+curr_qb` on an up-move, `−prev_qb` on a
down-move, quantity delta when unchanged; ask side inverted), and the emitted value
always lies in `[−1, 1]`. -/
theorem ofi_characterization (o : Oracle) (st : EngineState) (s : RawSnapshot)
    (pb pa : ℚ) (hv : (validateSnapshot s).1 = true)
    (hpb : st.prevBestBid = some pb) (hpa : st.prevBestAsk = some pa) :
    (processSnapshot o st s).2.ofi =
      some (pyRound 4 (clampQ (computeOfi pb pa st.prevBidQ st.prevAskQ
        ((bidsQ s).headD (0, 0)).1 ((bidsQ s).headD (0, 0)).2
        ((asksQ s).headD (0, 0)).1 ((asksQ s).headD (0, 0)).2 / 500) (-1) 1)) ∧
    (∀ pqb pqa bb qb ba qa : ℚ,
      computeOfi pb pa pqb pqa bb qb ba qa =
        (if bb > pb then qb else if bb < pb then -pqb else qb - pqb) +
        (if ba > pa then pqa else if ba < pa then -qa else -(qa - pqa))) ∧
    (∀ q, (processSnapshot o st s).2.ofi = some q → -1 ≤ q ∧ q ≤ 1) := by
  have hps : processSnapshot o st s = processValid o st s := by
    unfold processSnapshot
    simp [hv]
  have hofi : (processSnapshot o st s).2.ofi =
      some (pyRound 4 (ofiField st ((bidsQ s).headD (0, 0)).1 ((bidsQ s).headD (0, 0)).2
        ((asksQ s).headD (0, 0)).1 ((asksQ s).headD (0, 0)).2)) := by
    rw [hps]
    rfl
  have hfield : ofiField st ((bidsQ s).headD (0, 0)).1 ((bidsQ s).headD (0, 0)).2
      ((asksQ s).headD (0, 0)).1 ((asksQ s).headD (0, 0)).2 =
      clampQ (computeOfi pb pa st.prevBidQ st.prevAskQ
        ((bidsQ s).headD (0, 0)).1 ((bidsQ s).headD (0, 0)).2
        ((asksQ s).headD (0, 0)).1 ((asksQ s).headD (0, 0)).2 / 500) (-1) 1 := by
    unfold ofiField
    rw [hpb, hpa]
  refine ⟨by rw [hofi, hfield], fun _ _ _ _ _ _ => rfl, ?_⟩
  intro q hq
  rw [hofi, hfield] at hq
  have hqe : q = pyRound 4 (clampQ (computeOfi pb pa st.prevBidQ st.prevAskQ
      ((bidsQ s).headD (0, 0)).1 ((bidsQ s).headD (0, 0)).2
      ((asksQ s).headD (0, 0)).1 ((asksQ s).headD (0, 0)).2 / 500) (-1) 1) :=
    (Option.some.inj hq).symm
  have hcl := clampQ_mem (computeOfi pb pa st.prevBidQ st.prevAskQ
      ((bidsQ s).headD (0, 0)).1 ((bidsQ s).headD (0, 0)).2
      ((asksQ s).headD (0, 0)).1 ((asksQ s).headD (0, 0)).2 / 500) (-1) 1 (by norm_num)
  have e1 : pyRound 4 (-1 : ℚ) = -1 := by
    have := pyRound_intCast 4 (-1)
    push_cast at this
    exact this
  have e2 : pyRound 4 (1 : ℚ) = 1 := by
    have := pyRound_intCast 4 1
    push_cast at this
    exact this
  constructor
  · rw [hqe]
    calc (-1 : ℚ) = pyRound 4 (-1) := e1.symm
    _ ≤ _ := pyRound_mono 4 hcl.1
  · rw [hqe]
    calc pyRound 4 _ ≤ pyRound 4 1 := pyRound_mono 4 hcl.2
    _ = 1 := e2

/-- C5, witness: the concrete two-snapshot run emits `ofi = 0`, which indeed lies in
`[−1, 1]`. -/
theorem ofi_characterization_witness :
    exOfiRun.2.ofi = some 0 ∧ (-1 : ℚ) ≤ 0 ∧ (0 : ℚ) ≤ 1 := by
  have h := ofi_characterization exOracle
    (processSnapshot exOracle (initEngineState 0) exOfiSnap1).1 exOfiSnap2 100 101
    (by with_unfolding_all rfl) (by with_unfolding_all rfl) (by with_unfolding_all rfl)
  have hofi : exOfiRun.2.ofi = some 0 := by with_unfolding_all rfl
  exact ⟨hofi, (h.2.2 0 hofi).1, (h.2.2 0 hofi).2⟩

/-- C7, witness: a high-severity DEPTH_SHOCK alert whose counter reaches the threshold
2 is escalated to critical with the suffixed message. -/
theorem escalation_amended_witness :
    (escalateSeverity ⟨[], [("DEPTH_SHOCK", 1)], []⟩
      ⟨"DEPTH_SHOCK", "high", AMsg.regimeCrisis⟩).2.severity = "critical" ∧
    (escalateSeverity ⟨[], [("DEPTH_SHOCK", 1)], []⟩
      ⟨"DEPTH_SHOCK", "high", AMsg.regimeCrisis⟩).2.msg = .escalated AMsg.regimeCrisis 2 := by
  have h := escalation_amended ⟨[], [("DEPTH_SHOCK", 1)], []⟩
    ⟨"DEPTH_SHOCK", "high", AMsg.regimeCrisis⟩ 2 rfl
  have hn : countOf ([("DEPTH_SHOCK", 1)] : List (String × ℕ)) "DEPTH_SHOCK" + 1 = 2 := by decide
  have h2 := (h.2.1 (by rw [hn])).1 rfl
  rw [hn] at h2
  exact h2

end LOB
